import Mathlib

/-!
Verification of the in-memory knowledge-graph core of QuantGPT
(`src/quantgpt/knowledge_graph.py`): the Graph Store (`KnowledgeGraph`),
the Graph Builder (`build_graph_from_sqlite`) and the Query Layer
(`get_vulnerabilities`, `get_risk_assessments`,
`get_protocols_using_algorithm`).

The embedding is shallow and executable.  Python dictionaries are
modelled as insertion-ordered association lists (`lookupA` / `setK`);
`collections.defaultdict(list)` reads that insert a missing key are
modelled by `getRels`, which returns the (possibly extended) store;
a Python `KeyError` on a plain `dict[...]` access is modelled by
`Option` / `Except` failure.  Scalar cell values (including `None`,
Python's default for `dict.get`) are the inductive type `Value`.
-/

set_option maxHeartbeats 1000000

/-! ## Association lists: the model of Python `dict`

`lookupA m k` is `m.get(k)` as an `Option`; `setK m k v` is `m[k] = v`:
it overwrites in place when the key is present and appends at the end
when it is absent, preserving Python's insertion order. -/

def lookupA {K V : Type} [DecidableEq K] : List (K × V) → K → Option V
  | [], _ => none
  | (k0, v0) :: rest, k => if k0 = k then some v0 else lookupA rest k

def setK {K V : Type} [DecidableEq K] : List (K × V) → K → V → List (K × V)
  | [], k, v => [(k, v)]
  | (k0, v0) :: rest, k, v =>
      if k0 = k then (k, v) :: rest else (k0, v0) :: setK rest k v

/-! ## Values and property maps -/

/-- A Python scalar as stored in node property maps: `None`, an `int`
or a `str` (the three shapes produced by the sqlite rows the Builder
reads). -/
inductive Value where
  | vnone : Value
  | vint : Int → Value
  | vstr : String → Value
deriving DecidableEq

/-- A node property map: a Python `dict` from strings to scalars. -/
abbrev Props := List (String × Value)

/-- Python `props.get(key)`: the bound value, or `None` when the key is
absent. -/
def propGet (p : Props) (k : String) : Value :=
  match lookupA p k with
  | some v => v
  | none => Value.vnone

/-- The optional lookup `key in props ? props[key] : absent`, used to
state what "the property map contains `k` bound to `v`" means. -/
def propGetQ (p : Props) (k : String) : Option Value :=
  lookupA p k

/-! ## The Graph Store (`class KnowledgeGraph`, lines 7-29) -/

/-- One entry of `self.nodes`: `{"label": str, "props": dict}`. -/
structure Node where
  label : String
  props : Props
deriving DecidableEq

/-- `KnowledgeGraph.__init__` state: `self.nodes = {}`,
`self.relationships = defaultdict(list)`, `self.next_id = 1`. -/
structure KnowledgeGraph where
  nodes : List (Nat × Node)
  relationships : List (Nat × List (String × Nat))
  next_id : Nat
deriving DecidableEq

/-- A freshly constructed store (`KnowledgeGraph.__init__`). -/
def emptyKG : KnowledgeGraph := ⟨[], [], 1⟩

/-- `KnowledgeGraph.add_node` (lines 13-18): allocate `next_id`,
store the node, return the id. -/
def add_node (G : KnowledgeGraph) (label : String) (props : Props) :
    Nat × KnowledgeGraph :=
  let node_id := G.next_id
  (node_id,
   { nodes := setK G.nodes node_id ⟨label, props⟩
     relationships := G.relationships
     next_id := G.next_id + 1 })

/-- `KnowledgeGraph.add_relationship` (lines 20-22):
`self.relationships[src_id].append((rel_type, dst_id))`, with
`defaultdict` semantics: a missing source key starts from `[]`. -/
def add_relationship (G : KnowledgeGraph) (src : Nat) (rel : String)
    (dst : Nat) : KnowledgeGraph :=
  { G with
    relationships :=
      setK G.relationships src
        ((match lookupA G.relationships src with
          | some l => l
          | none => []) ++ [(rel, dst)]) }

/-- `KnowledgeGraph.find_node_by_prop` (lines 24-29): all node ids whose
`props.get(key)` equals `value`, in node insertion order. -/
def find_node_by_prop (G : KnowledgeGraph) (key : String) (value : Value) :
    List Nat :=
  (G.nodes.filter (fun p => propGet p.2.props key == value)).map Prod.fst

/-- The edge list currently stored for `k`, defaulting to `[]` — the
value `self.relationships[k]` evaluates to. -/
def relsD (G : KnowledgeGraph) (k : Nat) : List (String × Nat) :=
  match lookupA G.relationships k with
  | some l => l
  | none => []

/-- The property map of node `i`, defaulting to `{}` when absent (used
only in specification-side functions; the code's own accesses are
modelled with `Option`). -/
def propsD (G : KnowledgeGraph) (i : Nat) : Props :=
  match lookupA G.nodes i with
  | some nd => nd.props
  | none => []

/-- The mutating read `self.relationships[k]` of a
`defaultdict(list)`: if `k` is absent, the entry `(k, [])` is inserted
(at the end, preserving insertion order) and `[]` is returned. -/
def getRels (G : KnowledgeGraph) (k : Nat) :
    List (String × Nat) × KnowledgeGraph :=
  match lookupA G.relationships k with
  | some l => (l, G)
  | none => ([], { G with relationships := G.relationships ++ [(k, [])] })

/-! ## The Query Layer (lines 31-60)

Each Python loop becomes one recursive function threading the store
(because of the `defaultdict` reads) and an accumulator; a `dict`
access `self.nodes[dst]` that would raise `KeyError` makes the whole
query return `none`. -/

/-- Inner loop of `get_protocols_using_algorithm` (lines 36-38):
`if rel == "USED_IN" and self.nodes[dst]["label"] == "Protocol"`. -/
def protosInner (G : KnowledgeGraph) (rels : List (String × Nat))
    (acc : List Props) : Option (List Props) :=
  match rels with
  | [] => some acc
  | (rel, dst) :: rest =>
    if rel = "USED_IN" then
      match lookupA G.nodes dst with
      | some nd =>
          if nd.label = "Protocol" then
            protosInner G rest (acc ++ [nd.props])
          else
            protosInner G rest acc
      | none => none
    else
      protosInner G rest acc

/-- Outer loop of `get_protocols_using_algorithm` (lines 35-38). -/
def protosOuter (G : KnowledgeGraph) (ids : List Nat) (acc : List Props) :
    Option (List Props × KnowledgeGraph) :=
  match ids with
  | [] => some (acc, G)
  | i :: rest =>
    let (rels, G1) := getRels G i
    match protosInner G1 rels acc with
    | some acc1 => protosOuter G1 rest acc1
    | none => none

/-- `KnowledgeGraph.get_protocols_using_algorithm` (lines 32-39). -/
def get_protocols_using_algorithm (G : KnowledgeGraph) (algo_name : String) :
    Option (List Props × KnowledgeGraph) :=
  protosOuter G (find_node_by_prop G "algo_name" (Value.vstr algo_name)) []

/-- Innermost loop of `get_vulnerabilities` (lines 48-50): collect the
properties of `HAS_VULNERABILITY` destinations. -/
def vulnsInner (G : KnowledgeGraph) (rels : List (String × Nat))
    (acc : List Props) : Option (List Props) :=
  match rels with
  | [] => some acc
  | (rel2, dst2) :: rest =>
    if rel2 = "HAS_VULNERABILITY" then
      match lookupA G.nodes dst2 with
      | some nd => vulnsInner G rest (acc ++ [nd.props])
      | none => none
    else
      vulnsInner G rest acc

/-- Middle loop of `get_vulnerabilities` (lines 45-50): for each
`HAS_ASSESSMENT` edge, read `self.nodes[dst]` (a `KeyError` source)
and `self.relationships[dst]` (a mutating `defaultdict` read). -/
def vulnsMid (G : KnowledgeGraph) (rels : List (String × Nat))
    (acc : List Props) : Option (List Props × KnowledgeGraph) :=
  match rels with
  | [] => some (acc, G)
  | (rel, dst) :: rest =>
    if rel = "HAS_ASSESSMENT" then
      match lookupA G.nodes dst with
      | some _ra =>
        let (rels2, G1) := getRels G dst
        match vulnsInner G1 rels2 acc with
        | some acc1 => vulnsMid G1 rest acc1
        | none => none
      | none => none
    else
      vulnsMid G rest acc

/-- Outer loop of `get_vulnerabilities` (lines 44-50). -/
def vulnsOuter (G : KnowledgeGraph) (ids : List Nat) (acc : List Props) :
    Option (List Props × KnowledgeGraph) :=
  match ids with
  | [] => some (acc, G)
  | i :: rest =>
    let (rels, G1) := getRels G i
    match vulnsMid G1 rels acc with
    | some (acc1, G2) => vulnsOuter G2 rest acc1
    | none => none

/-- `KnowledgeGraph.get_vulnerabilities` (lines 41-51). -/
def get_vulnerabilities (G : KnowledgeGraph) (entity_name : String) :
    Option (List Props × KnowledgeGraph) :=
  vulnsOuter G (find_node_by_prop G "entity_name" (Value.vstr entity_name)) []

/-- Inner loop of `get_risk_assessments` (lines 57-59). -/
def rasInner (G : KnowledgeGraph) (rels : List (String × Nat))
    (acc : List Props) : Option (List Props) :=
  match rels with
  | [] => some acc
  | (rel, dst) :: rest =>
    if rel = "HAS_ASSESSMENT" then
      match lookupA G.nodes dst with
      | some nd => rasInner G rest (acc ++ [nd.props])
      | none => none
    else
      rasInner G rest acc

/-- Outer loop of `get_risk_assessments` (lines 56-59). -/
def rasOuter (G : KnowledgeGraph) (ids : List Nat) (acc : List Props) :
    Option (List Props × KnowledgeGraph) :=
  match ids with
  | [] => some (acc, G)
  | i :: rest =>
    let (rels, G1) := getRels G i
    match rasInner G1 rels acc with
    | some acc1 => rasOuter G1 rest acc1
    | none => none

/-- `KnowledgeGraph.get_risk_assessments` (lines 53-60). -/
def get_risk_assessments (G : KnowledgeGraph) (entity_name : String) :
    Option (List Props × KnowledgeGraph) :=
  rasOuter G (find_node_by_prop G "entity_name" (Value.vstr entity_name)) []

/-! ## The relational snapshot and the Graph Builder (lines 63-119) -/

/-- A row of the `entities` table. -/
structure EntityRow where
  entity_id : Int
  entity_type : String
  entity_name : String
deriving DecidableEq

/-- A row of the `algorithms` table. -/
structure AlgorithmRow where
  algorithm_id : Int
  entity_id : Int
  algo_name : String
  algo_family : String
  crypto_type : String
deriving DecidableEq

/-- A row of the `protocols` table. -/
structure ProtocolRow where
  protocol_id : Int
  entity_id : Int
  protocol_name : String
  cipher_suites : String
deriving DecidableEq

/-- A row of the `certificates` table. -/
structure CertificateRow where
  cert_id : Int
  entity_id : Int
  cert_name : String
  recommended_crypto_suite : String
deriving DecidableEq

/-- A row of the `vulnerabilities` table. -/
structure VulnRow where
  vuln_id : Int
  vuln_type : String
deriving DecidableEq

/-- A row of the `lir` table. -/
structure LirRow where
  lir_id : Int
  likelihood : Int
  impact : Int
  overall_risk : Int
deriving DecidableEq

/-- A row of the `risk_assessments` table. -/
structure RiskRow where
  assessment_id : Int
  entity_id : Int
  vuln_id : Int
  lir_id : Int
  quant_stride : String
deriving DecidableEq

/-- The point-in-time relational snapshot `pq_risk.db`, as the seven
tables the Builder `SELECT`s, each in cursor order. -/
structure Database where
  entities : List EntityRow
  algorithms : List AlgorithmRow
  protocols : List ProtocolRow
  certificates : List CertificateRow
  vulnerabilities : List VulnRow
  lir : List LirRow
  risk_assessments : List RiskRow
deriving DecidableEq

/-- Property map of an `Entity` node (line 73). -/
def entProps (r : EntityRow) : Props :=
  [("entity_id", Value.vint r.entity_id),
   ("entity_type", Value.vstr r.entity_type),
   ("entity_name", Value.vstr r.entity_name)]

/-- Property map of an `Algorithm` node (line 79). -/
def algoProps (r : AlgorithmRow) : Props :=
  [("algorithm_id", Value.vint r.algorithm_id),
   ("algo_name", Value.vstr r.algo_name),
   ("algo_family", Value.vstr r.algo_family),
   ("crypto_type", Value.vstr r.crypto_type)]

/-- Property map of a `Protocol` node (line 85). -/
def protoProps (r : ProtocolRow) : Props :=
  [("protocol_id", Value.vint r.protocol_id),
   ("protocol_name", Value.vstr r.protocol_name),
   ("cipher_suites", Value.vstr r.cipher_suites)]

/-- Property map of a `Certificate` node (line 91). -/
def certProps (r : CertificateRow) : Props :=
  [("cert_id", Value.vint r.cert_id),
   ("cert_name", Value.vstr r.cert_name),
   ("recommended_crypto_suite", Value.vstr r.recommended_crypto_suite)]

/-- Property map of a `Vulnerability` node (line 98). -/
def vulnProps (r : VulnRow) : Props :=
  [("vuln_id", Value.vint r.vuln_id),
   ("vuln_type", Value.vstr r.vuln_type)]

/-- Property map of a `LIR` node (line 105). -/
def lirProps (r : LirRow) : Props :=
  [("lir_id", Value.vint r.lir_id),
   ("likelihood", Value.vint r.likelihood),
   ("impact", Value.vint r.impact),
   ("overall_risk", Value.vint r.overall_risk)]

/-- Property map of a `RiskAssessment` node (line 111). -/
def raProps (r : RiskRow) : Props :=
  [("assessment_id", Value.vint r.assessment_id),
   ("quant_stride", Value.vstr r.quant_stride)]

/-- Builder phase 1 (lines 70-74): one `Entity` node per row, recording
`entity_map[eid] = node_id`. -/
def buildEntities (G : KnowledgeGraph) (rows : List EntityRow)
    (emap : List (Int × Nat)) : KnowledgeGraph × List (Int × Nat) :=
  match rows with
  | [] => (G, emap)
  | r :: rest =>
    let (nid, G1) := add_node G "Entity" (entProps r)
    buildEntities G1 rest (setK emap r.entity_id nid)

/-- Builder phase 2 (lines 77-80): `Algorithm` nodes with an
`IS_ENTITY` edge to `entity_map[eid]`; a missing key is a `KeyError`,
modelled as `Except.error` carrying the store at the failure point. -/
def buildAlgorithms (G : KnowledgeGraph) (rows : List AlgorithmRow)
    (emap : List (Int × Nat)) : Except KnowledgeGraph KnowledgeGraph :=
  match rows with
  | [] => Except.ok G
  | r :: rest =>
    let (nid, G1) := add_node G "Algorithm" (algoProps r)
    match lookupA emap r.entity_id with
    | some e => buildAlgorithms (add_relationship G1 nid "IS_ENTITY" e) rest emap
    | none => Except.error G1

/-- Builder phase 3 (lines 83-86): `Protocol` nodes, same shape as
phase 2. -/
def buildProtocols (G : KnowledgeGraph) (rows : List ProtocolRow)
    (emap : List (Int × Nat)) : Except KnowledgeGraph KnowledgeGraph :=
  match rows with
  | [] => Except.ok G
  | r :: rest =>
    let (nid, G1) := add_node G "Protocol" (protoProps r)
    match lookupA emap r.entity_id with
    | some e => buildProtocols (add_relationship G1 nid "IS_ENTITY" e) rest emap
    | none => Except.error G1

/-- Builder phase 4 (lines 89-92): `Certificate` nodes, same shape as
phase 2. -/
def buildCertificates (G : KnowledgeGraph) (rows : List CertificateRow)
    (emap : List (Int × Nat)) : Except KnowledgeGraph KnowledgeGraph :=
  match rows with
  | [] => Except.ok G
  | r :: rest =>
    let (nid, G1) := add_node G "Certificate" (certProps r)
    match lookupA emap r.entity_id with
    | some e => buildCertificates (add_relationship G1 nid "IS_ENTITY" e) rest emap
    | none => Except.error G1

/-- Builder phase 5 (lines 95-99): `Vulnerability` nodes, recording
`vuln_map[vid] = node_id`. -/
def buildVulns (G : KnowledgeGraph) (rows : List VulnRow)
    (vmap : List (Int × Nat)) : KnowledgeGraph × List (Int × Nat) :=
  match rows with
  | [] => (G, vmap)
  | r :: rest =>
    let (nid, G1) := add_node G "Vulnerability" (vulnProps r)
    buildVulns G1 rest (setK vmap r.vuln_id nid)

/-- Builder phase 6 (lines 102-106): `LIR` nodes, recording
`lir_map[lid] = node_id`. -/
def buildLirs (G : KnowledgeGraph) (rows : List LirRow)
    (lmap : List (Int × Nat)) : KnowledgeGraph × List (Int × Nat) :=
  match rows with
  | [] => (G, lmap)
  | r :: rest =>
    let (nid, G1) := add_node G "LIR" (lirProps r)
    buildLirs G1 rest (setK lmap r.lir_id nid)

/-- Builder phase 7 (lines 109-116): a `RiskAssessment` node per row;
`entity_map[eid]` is an unguarded access (fatal when absent, after the
node allocation); the `vuln_map` / `lir_map` edges are guarded by
membership tests and silently skipped when the key is absent. -/
def buildRisk (G : KnowledgeGraph) (rows : List RiskRow)
    (emap vmap lmap : List (Int × Nat)) :
    Except KnowledgeGraph KnowledgeGraph :=
  match rows with
  | [] => Except.ok G
  | r :: rest =>
    let (ra_id, G1) := add_node G "RiskAssessment" (raProps r)
    match lookupA emap r.entity_id with
    | none => Except.error G1
    | some e =>
      let G2 := add_relationship G1 e "HAS_ASSESSMENT" ra_id
      let G3 :=
        match lookupA vmap r.vuln_id with
        | some v => add_relationship G2 ra_id "HAS_VULNERABILITY" v
        | none => G2
      let G4 :=
        match lookupA lmap r.lir_id with
        | some l => add_relationship G3 ra_id "HAS_RISK" l
        | none => G3
      buildRisk G4 rest emap vmap lmap

/-- `build_graph_from_sqlite` (lines 63-119): the seven phases in source
order (entities, algorithms, protocols, certificates, vulnerabilities,
lir, risk assessments).  An unresolved `entity_id` raises (`Except.error`
carrying the store at the failure point); on success the populated
store is returned. -/
def build_graph_from_sqlite (db : Database) :
    Except KnowledgeGraph KnowledgeGraph :=
  let (G1, emap) := buildEntities emptyKG db.entities []
  match buildAlgorithms G1 db.algorithms emap with
  | Except.error g => Except.error g
  | Except.ok G2 =>
    match buildProtocols G2 db.protocols emap with
    | Except.error g => Except.error g
    | Except.ok G3 =>
      match buildCertificates G3 db.certificates emap with
      | Except.error g => Except.error g
      | Except.ok G4 =>
        let (G5, vmap) := buildVulns G4 db.vulnerabilities []
        let (G6, lmap) := buildLirs G5 db.lir []
        buildRisk G6 db.risk_assessments emap vmap lmap

/-! ## Specification-side query functions

Pure (non-mutating, total) restatements of §4.3 of the spec, used to
express what the stateful code computes. -/

/-- §4.3 `vulnerabilities_for_entity`, transcribed from the spec's
words: resolve the name to `Entity` ids by property lookup, follow
`HAS_ASSESSMENT` then `HAS_VULNERABILITY`, and return the flat list of
`Vulnerability` property maps in entity-match order then edge insertion
order, without deduplication. -/
def vulnsSpec (G : KnowledgeGraph) (name : String) : List Props :=
  (find_node_by_prop G "entity_name" (Value.vstr name)).flatMap (fun eid =>
    ((relsD G eid).filter (fun rd => rd.1 == "HAS_ASSESSMENT")).flatMap (fun rd =>
      ((relsD G rd.2).filter (fun r2 => r2.1 == "HAS_VULNERABILITY")).map
        (fun r2 => propsD G r2.2)))

/-- §4.3 `risk_assessments_for_entity`, transcribed from the spec's
words: one-hop traversal `Entity → RiskAssessment`, returning each
matched assessment's properties directly. -/
def rasSpec (G : KnowledgeGraph) (name : String) : List Props :=
  (find_node_by_prop G "entity_name" (Value.vstr name)).flatMap (fun eid =>
    ((relsD G eid).filter (fun rd => rd.1 == "HAS_ASSESSMENT")).map
      (fun rd => propsD G rd.2))

/-! ## Frame relations, invariants and traversal contributions -/

/-- The only relationship-map change a `defaultdict` read can make:
every key's binding is unchanged, or was absent and is now `[]`. -/
def RelFrame (R R2 : List (Nat × List (String × Nat))) : Prop :=
  ∀ k, lookupA R2 k = lookupA R k ∨
    (lookupA R k = none ∧ lookupA R2 k = some [])

/-- What a Query Layer call does to the store: nodes and id counter
unchanged, relationships at most extended with empty-list entries. -/
def QueryFrame (G G2 : KnowledgeGraph) : Prop :=
  G2.nodes = G.nodes ∧ G2.next_id = G.next_id ∧
    RelFrame G.relationships G2.relationships

/-- Every stored edge's destination is a present node id. -/
def EdgesClosed (G : KnowledgeGraph) : Prop :=
  ∀ k l, lookupA G.relationships k = some l →
    ∀ td ∈ l, (lookupA G.nodes td.2).isSome

/-- All node keys are below the id counter. -/
def NodesWF (G : KnowledgeGraph) : Prop :=
  ∀ k, (lookupA G.nodes k).isSome → k < G.next_id

/-- All relationship source keys are below the id counter. -/
def RelWF (G : KnowledgeGraph) : Prop :=
  ∀ k, (lookupA G.relationships k).isSome → k < G.next_id

/-- `G2` preserves every node binding of `G`. -/
def NodesLe (G G2 : KnowledgeGraph) : Prop :=
  ∀ k v, lookupA G.nodes k = some v → lookupA G2.nodes k = some v

/-- Every value of a relational-id → node-id map is a present node. -/
def MapClosed (m : List (Int × Nat)) (G : KnowledgeGraph) : Prop :=
  ∀ k e, lookupA m k = some e → (lookupA G.nodes e).isSome

/-- Every value of a relational-id → node-id map is below `b`. -/
def MapBound (m : List (Int × Nat)) (b : Nat) : Prop :=
  ∀ k e, lookupA m k = some e → e < b

/-- `entity_map` semantics: each binding `k ↦ e` names an `Entity`
node whose `entity_id` property is `k`. -/
def EntAt (G : KnowledgeGraph) (m : List (Int × Nat)) : Prop :=
  ∀ k e, lookupA m k = some e →
    ∃ t nm, lookupA G.nodes e = some ⟨"Entity", entProps ⟨k, t, nm⟩⟩

/-- `td` is one of the edges stored at source `k`. -/
def edgeIn (G : KnowledgeGraph) (k : Nat) (td : String × Nat) : Prop :=
  ∃ l, lookupA G.relationships k = some l ∧ td ∈ l

/-- The vulnerabilities contributed by one assessment-edge list. -/
def midSpec (G : KnowledgeGraph) (rels : List (String × Nat)) : List Props :=
  (rels.filter (fun rd => rd.1 == "HAS_ASSESSMENT")).flatMap (fun rd =>
    ((relsD G rd.2).filter (fun r2 => r2.1 == "HAS_VULNERABILITY")).map
      (fun r2 => propsD G r2.2))

/-- The vulnerabilities contributed by a list of entity ids. -/
def outerSpecV (G : KnowledgeGraph) (ids : List Nat) : List Props :=
  ids.flatMap (fun eid => midSpec G (relsD G eid))

/-- The assessments contributed by one assessment-edge list. -/
def rasContrib (G : KnowledgeGraph) (rels : List (String × Nat)) : List Props :=
  (rels.filter (fun rd => rd.1 == "HAS_ASSESSMENT")).map
    (fun rd => propsD G rd.2)

/-- The assessments contributed by a list of entity ids. -/
def outerSpecR (G : KnowledgeGraph) (ids : List Nat) : List Props :=
  ids.flatMap (fun eid => rasContrib G (relsD G eid))

/-- The store produced by one risk-assessment row whose `entity_id`
resolved to node `e` (the body of the loop at lines 110-116 after the
`entity_map[eid]` access succeeded). -/
def riskStepG (G : KnowledgeGraph) (r : RiskRow) (e : Nat)
    (vmap lmap : List (Int × Nat)) : KnowledgeGraph :=
  let ra_id := (add_node G "RiskAssessment" (raProps r)).1
  let G1 := (add_node G "RiskAssessment" (raProps r)).2
  let G2 := add_relationship G1 e "HAS_ASSESSMENT" ra_id
  let G3 :=
    match lookupA vmap r.vuln_id with
    | some v => add_relationship G2 ra_id "HAS_VULNERABILITY" v
    | none => G2
  match lookupA lmap r.lir_id with
  | some l => add_relationship G3 ra_id "HAS_RISK" l
  | none => G3

/-- A guarded edge: `if key in map: G.add_relationship(s, t, map[key])`
as a function of the optional lookup result. -/
def optAdd (H : KnowledgeGraph) (s : Nat) (t : String) :
    Option Nat → KnowledgeGraph
  | some d => add_relationship H s t d
  | none => H

/-- The invariants the Builder maintains between phases: well-formed
keys, closed edges, closed id maps, and the `entity_map` value bound
`b0`. -/
def BuildInv (G : KnowledgeGraph) (emap vmap lmap : List (Int × Nat))
    (b0 : Nat) : Prop :=
  NodesWF G ∧ RelWF G ∧ EdgesClosed G ∧ MapClosed emap G ∧
    MapClosed vmap G ∧ MapClosed lmap G ∧ MapBound emap b0 ∧ b0 ≤ G.next_id

/-! ## Call sequences and concrete instances -/

/-- Run a sequence of `add_node` calls, collecting the returned ids. -/
def runAddNodes (G : KnowledgeGraph) :
    List (String × Props) → List Nat × KnowledgeGraph
  | [] => ([], G)
  | (l, p) :: rest =>
    let (i, G1) := add_node G l p
    let (is, G2) := runAddNodes G1 rest
    (i :: is, G2)

/-- Call `add_relationship s t d` on `G`, `n` times. -/
def addRelN (G : KnowledgeGraph) (s : Nat) (t : String) (d : Nat) :
    Nat → KnowledgeGraph
  | 0 => G
  | n + 1 => addRelN (add_relationship G s t d) s t d n

/-- A snapshot with one entity and nothing else. -/
def dbC1 : Database := ⟨[⟨1, "HW", "E1"⟩], [], [], [], [], [], []⟩

/-- The graph the Builder produces from `dbC1`. -/
def KGC1 : KnowledgeGraph :=
  match build_graph_from_sqlite dbC1 with
  | Except.ok G => G
  | Except.error g => g

/-- The store after `get_vulnerabilities KGC1 "E1"`. -/
def KGC1x : KnowledgeGraph :=
  match get_vulnerabilities KGC1 "E1" with
  | some (_, G2) => G2
  | none => emptyKG

/-- A store holding one node with an empty property map. -/
def KGC2 : KnowledgeGraph := (add_node emptyKG "X" []).2

/-- A store holding one node with property `p = "x"`. -/
def KGC2w : KnowledgeGraph :=
  (add_node emptyKG "X" [("p", Value.vstr "x")]).2

/-- The seven empty tables. -/
def dbEmpty : Database := ⟨[], [], [], [], [], [], []⟩

/-- A snapshot whose only row is a risk assessment with an unresolved
`entity_id`. -/
def dbC3 : Database := ⟨[], [], [], [], [], [], [⟨100, 1, 10, 5, "x"⟩]⟩

/-- A snapshot with an algorithm row whose `entity_id` is unresolved. -/
def dbC3bad : Database := ⟨[], [⟨7, 1, "A", "f", "c"⟩], [], [], [], [], []⟩

/-- A snapshot whose entity foreign keys all resolve (the risk row's
`vuln_id` and `lir_id` dangle, which is non-fatal). -/
def dbC3good : Database :=
  ⟨[⟨1, "t", "E"⟩], [⟨7, 1, "A", "f", "c"⟩], [], [], [], [],
   [⟨100, 1, 10, 5, "x"⟩]⟩

/-- A store already holding one `("T", 2)` edge out of source `1`. -/
def KGC6 : KnowledgeGraph := add_relationship emptyKG 1 "T" 2

/-- The §8 two-hop scenario: entity `E` with assessments `A1` (to
vulnerability 10, LIR 5) and `A2` (to vulnerability 11, unresolved
LIR 99). -/
def dbC7 : Database :=
  ⟨[⟨1, "hw", "E"⟩], [], [], [],
   [⟨10, "shor"⟩, ⟨11, "grover"⟩], [⟨5, 3, 4, 4⟩],
   [⟨100, 1, 10, 5, "s1"⟩, ⟨101, 1, 11, 99, "s2"⟩]⟩

/-- The graph built from `dbC7`. -/
def KGC7 : KnowledgeGraph :=
  match build_graph_from_sqlite dbC7 with
  | Except.ok G => G
  | Except.error g => g

/-- The store after `get_vulnerabilities KGC7 "E"`. -/
def KGC7x : KnowledgeGraph :=
  match get_vulnerabilities KGC7 "E" with
  | some (_, G2) => G2
  | none => emptyKG

/-- The store after `get_risk_assessments KGC7 "E"`. -/
def KGC7y : KnowledgeGraph :=
  match get_risk_assessments KGC7 "E" with
  | some (_, G2) => G2
  | none => emptyKG

/-- Two entities sharing the name `"D"`, each with one assessment
pointing at its own vulnerability. -/
def dbDup : Database :=
  ⟨[⟨1, "hw", "D"⟩, ⟨2, "sw", "D"⟩], [], [], [],
   [⟨10, "a"⟩, ⟨11, "b"⟩], [],
   [⟨100, 1, 10, 0, "s"⟩, ⟨101, 2, 11, 0, "s"⟩]⟩

/-- The graph built from `dbDup`. -/
def KGDup : KnowledgeGraph :=
  match build_graph_from_sqlite dbDup with
  | Except.ok G => G
  | Except.error g => g

/-- The store after `get_vulnerabilities KGDup "D"`. -/
def KGDupx : KnowledgeGraph :=
  match get_vulnerabilities KGDup "D" with
  | some (_, G2) => G2
  | none => emptyKG

/-- One entity owning one algorithm (for the `USED_IN` claim). -/
def dbC8 : Database :=
  ⟨[⟨1, "t", "E"⟩], [⟨7, 1, "RSA", "fam", "asym"⟩], [], [], [], [], []⟩

/-- The graph built from `dbC8`. -/
def KGC8 : KnowledgeGraph :=
  match build_graph_from_sqlite dbC8 with
  | Except.ok G => G
  | Except.error g => g

/-- One entity, one resolving risk row, then a risk row with an
unresolved `entity_id`. -/
def dbC10 : Database :=
  ⟨[⟨1, "t", "E"⟩], [], [], [], [], [],
   [⟨100, 1, 0, 0, "s"⟩, ⟨101, 5, 0, 0, "s"⟩]⟩

/-! ## Association-list lemmas -/

theorem lookupA_setK_self {K V : Type} [DecidableEq K]
    (m : List (K × V)) (k : K) (v : V) :
    lookupA (setK m k v) k = some v := by
  induction m with
  | nil => simp [setK, lookupA]
  | cons p rest ih =>
    by_cases h : p.1 = k
    · simp [setK, h, lookupA]
    · simp [setK, h, lookupA, ih]

theorem lookupA_setK_ne {K V : Type} [DecidableEq K]
    (m : List (K × V)) (k j : K) (v : V) (h : j ≠ k) :
    lookupA (setK m k v) j = lookupA m j := by
  have hkj : ¬(k = j) := fun h2 => h h2.symm
  induction m with
  | nil => simp [setK, lookupA, hkj]
  | cons p rest ih =>
    by_cases hk : p.1 = k
    · have hpj : ¬(p.1 = j) := by rw [hk]; exact hkj
      simp [setK, hk, lookupA, hkj, hpj]
    · by_cases hj : p.1 = j
      · simp [setK, hk, lookupA, hj, h]
      · simp [setK, hk, lookupA, hj, ih]

theorem lookupA_setK_isSome {K V : Type} [DecidableEq K]
    (m : List (K × V)) (k j : K) (v : V) :
    (lookupA (setK m k v) j).isSome ↔ j = k ∨ (lookupA m j).isSome := by
  by_cases h : j = k
  · subst h
    simp [lookupA_setK_self]
  · simp [lookupA_setK_ne m k j v h, h]

theorem setK_fresh {K V : Type} [DecidableEq K]
    (m : List (K × V)) (k : K) (v : V) (h : lookupA m k = none) :
    setK m k v = m ++ [(k, v)] := by
  induction m with
  | nil => simp [setK]
  | cons p rest ih =>
    by_cases hk : p.1 = k
    · simp [lookupA, hk] at h
    · simp [lookupA, hk] at h
      simp [setK, hk, ih h]

theorem lookupA_append_some {K V : Type} [DecidableEq K]
    (m m2 : List (K × V)) (k : K) (v : V) (h : lookupA m k = some v) :
    lookupA (m ++ m2) k = some v := by
  induction m with
  | nil => simp [lookupA] at h
  | cons p rest ih =>
    by_cases hk : p.1 = k
    · simp [lookupA, hk] at h ⊢
      exact h
    · simp [lookupA, hk] at h ⊢
      exact ih h

theorem lookupA_append_none {K V : Type} [DecidableEq K]
    (m m2 : List (K × V)) (k : K) (h : lookupA m k = none) :
    lookupA (m ++ m2) k = lookupA m2 k := by
  induction m with
  | nil => simp [lookupA]
  | cons p rest ih =>
    by_cases hk : p.1 = k
    · simp [lookupA, hk] at h
    · simp [lookupA, hk] at h ⊢
      exact ih h

theorem lookupA_mem {K V : Type} [DecidableEq K]
    (m : List (K × V)) (k : K) (v : V) (h : lookupA m k = some v) :
    (k, v) ∈ m := by
  induction m with
  | nil => simp [lookupA] at h
  | cons p rest ih =>
    by_cases hk : p.1 = k
    · simp [lookupA, hk] at h
      subst hk
      subst h
      exact List.mem_cons_self p rest
    · simp [lookupA, hk] at h
      exact List.mem_cons_of_mem p (ih h)

/-! ## Graph-operation lemmas -/

theorem rels_add_relationship (G : KnowledgeGraph) (s : Nat) (t : String)
    (d : Nat) :
    (add_relationship G s t d).relationships =
      setK G.relationships s (relsD G s ++ [(t, d)]) := rfl

theorem relsD_add_relationship (G : KnowledgeGraph) (s : Nat) (t : String)
    (d : Nat) (j : Nat) :
    relsD (add_relationship G s t d) j =
      if j = s then relsD G s ++ [(t, d)] else relsD G j := by
  by_cases h : j = s
  · subst h
    simp [relsD, rels_add_relationship, lookupA_setK_self]
  · simp [relsD, rels_add_relationship, lookupA_setK_ne _ _ _ _ h, h]

theorem nodes_add_relationship (G : KnowledgeGraph) (s : Nat) (t : String)
    (d : Nat) : (add_relationship G s t d).nodes = G.nodes := rfl

theorem next_add_relationship (G : KnowledgeGraph) (s : Nat) (t : String)
    (d : Nat) : (add_relationship G s t d).next_id = G.next_id := rfl

theorem getRels_fst (G : KnowledgeGraph) (k : Nat) :
    (getRels G k).1 = relsD G k := by
  unfold getRels relsD
  cases lookupA G.relationships k <;> rfl

theorem getRels_nodes (G : KnowledgeGraph) (k : Nat) :
    (getRels G k).2.nodes = G.nodes := by
  unfold getRels
  cases lookupA G.relationships k <;> rfl

theorem getRels_next (G : KnowledgeGraph) (k : Nat) :
    (getRels G k).2.next_id = G.next_id := by
  unfold getRels
  cases lookupA G.relationships k <;> rfl

theorem relFrame_refl (R : List (Nat × List (String × Nat))) :
    RelFrame R R := fun _ => Or.inl rfl

theorem relFrame_trans {R R2 R3 : List (Nat × List (String × Nat))}
    (h1 : RelFrame R R2) (h2 : RelFrame R2 R3) : RelFrame R R3 := by
  intro k
  rcases h2 k with h | ⟨ha, hb⟩
  · rcases h1 k with h1k | ⟨h1a, h1b⟩
    · exact Or.inl (h.trans h1k)
    · exact Or.inr ⟨h1a, h.trans h1b⟩
  · rcases h1 k with h1k | ⟨h1a, h1b⟩
    · exact Or.inr ⟨h1k ▸ ha, hb⟩
    · rw [h1b] at ha
      exact absurd ha (by simp)

theorem getRels_relFrame (G : KnowledgeGraph) (k : Nat) :
    RelFrame G.relationships (getRels G k).2.relationships := by
  unfold getRels
  cases hl : lookupA G.relationships k with
  | some l => exact relFrame_refl _
  | none =>
    intro j
    by_cases hj : j = k
    · subst hj
      refine Or.inr ⟨hl, ?_⟩
      simp only
      rw [lookupA_append_none _ _ _ hl]
      simp [lookupA]
    · simp only
      cases hlj : lookupA G.relationships j with
      | some lj => exact Or.inl (lookupA_append_some _ _ _ _ hlj)
      | none =>
        rw [lookupA_append_none _ _ _ hlj]
        simp only [lookupA]
        exact Or.inl (if_neg (fun h => hj h.symm))

theorem getRels_queryFrame (G : KnowledgeGraph) (k : Nat) :
    QueryFrame G (getRels G k).2 :=
  ⟨getRels_nodes G k, getRels_next G k, getRels_relFrame G k⟩

theorem queryFrame_refl (G : KnowledgeGraph) : QueryFrame G G :=
  ⟨rfl, rfl, relFrame_refl _⟩

theorem queryFrame_trans {G G2 G3 : KnowledgeGraph}
    (h1 : QueryFrame G G2) (h2 : QueryFrame G2 G3) : QueryFrame G G3 :=
  ⟨h2.1.trans h1.1, h2.2.1.trans h1.2.1, relFrame_trans h1.2.2 h2.2.2⟩

theorem queryFrame_relsD {G G2 : KnowledgeGraph} (h : QueryFrame G G2)
    (j : Nat) : relsD G2 j = relsD G j := by
  rcases h.2.2 j with hj | ⟨ha, hb⟩
  · simp [relsD, hj]
  · simp [relsD, ha, hb]

theorem queryFrame_propsD {G G2 : KnowledgeGraph} (h : QueryFrame G G2) :
    propsD G2 = propsD G := by
  funext j
  simp [propsD, h.1]

theorem queryFrame_edgesClosed {G G2 : KnowledgeGraph}
    (h : QueryFrame G G2) (hec : EdgesClosed G) : EdgesClosed G2 := by
  intro k l hl td htd
  rw [h.1]
  rcases h.2.2 k with hk | ⟨ha, hb⟩
  · exact hec k l (hk ▸ hl) td htd
  · rw [hl] at hb
    cases hb
    simp at htd

theorem edgesClosed_relsD {G : KnowledgeGraph} (hec : EdgesClosed G)
    (k : Nat) : ∀ td ∈ relsD G k, (lookupA G.nodes td.2).isSome := by
  intro td htd
  unfold relsD at htd
  cases hl : lookupA G.relationships k with
  | some l =>
    rw [hl] at htd
    exact hec k l hl td htd
  | none =>
    rw [hl] at htd
    simp at htd

/-! ## Query Layer lemmas: `get_vulnerabilities` loops -/

theorem vulnsInner_cons (G : KnowledgeGraph) (rel2 : String) (dst2 : Nat)
    (rest : List (String × Nat)) (acc : List Props) :
    vulnsInner G ((rel2, dst2) :: rest) acc =
      if rel2 = "HAS_VULNERABILITY" then
        match lookupA G.nodes dst2 with
        | some nd => vulnsInner G rest (acc ++ [nd.props])
        | none => none
      else vulnsInner G rest acc := rfl

theorem vulnsMid_cons (G : KnowledgeGraph) (rel : String) (dst : Nat)
    (rest : List (String × Nat)) (acc : List Props) :
    vulnsMid G ((rel, dst) :: rest) acc =
      if rel = "HAS_ASSESSMENT" then
        match lookupA G.nodes dst with
        | some _ra =>
          match vulnsInner (getRels G dst).2 (getRels G dst).1 acc with
          | some acc1 => vulnsMid (getRels G dst).2 rest acc1
          | none => none
        | none => none
      else vulnsMid G rest acc := rfl

theorem vulnsOuter_cons (G : KnowledgeGraph) (i : Nat) (rest : List Nat)
    (acc : List Props) :
    vulnsOuter G (i :: rest) acc =
      match vulnsMid (getRels G i).2 (getRels G i).1 acc with
      | some (acc1, G2) => vulnsOuter G2 rest acc1
      | none => none := rfl

theorem vulnsInner_some (G : KnowledgeGraph) (rels : List (String × Nat)) :
    ∀ acc res, vulnsInner G rels acc = some res →
      res = acc ++ (rels.filter (fun r2 => r2.1 == "HAS_VULNERABILITY")).map
        (fun r2 => propsD G r2.2) := by
  induction rels with
  | nil =>
    intro acc res h
    simp [vulnsInner] at h
    simp [h]
  | cons td rest ih =>
    intro acc res h
    obtain ⟨rel2, dst2⟩ := td
    rw [vulnsInner_cons] at h
    by_cases hrel : rel2 = "HAS_VULNERABILITY"
    · rw [if_pos hrel] at h
      cases hnd : lookupA G.nodes dst2 with
      | none =>
        rw [hnd] at h
        exact absurd h (by simp)
      | some nd =>
        rw [hnd] at h
        have hres := ih _ _ h
        subst hres
        simp [hrel, propsD, hnd]
    · rw [if_neg hrel] at h
      have hres := ih _ _ h
      subst hres
      simp [List.filter_cons, beq_iff_eq, hrel]

theorem vulnsInner_total (G : KnowledgeGraph) (rels : List (String × Nat))
    (h : ∀ td ∈ rels, td.1 = "HAS_VULNERABILITY" →
      (lookupA G.nodes td.2).isSome) :
    ∀ acc, (vulnsInner G rels acc).isSome := by
  induction rels with
  | nil => intro acc; simp [vulnsInner]
  | cons td rest ih =>
    intro acc
    obtain ⟨rel2, dst2⟩ := td
    rw [vulnsInner_cons]
    by_cases hrel : rel2 = "HAS_VULNERABILITY"
    · rw [if_pos hrel]
      have hs : (lookupA G.nodes dst2).isSome :=
        h (rel2, dst2) (List.mem_cons_self _ _) hrel
      cases hnd : lookupA G.nodes dst2 with
      | none => rw [hnd] at hs; simp at hs
      | some nd =>
        exact ih (fun td htd => h td (List.mem_cons_of_mem _ htd)) _
    · rw [if_neg hrel]
      exact ih (fun td htd => h td (List.mem_cons_of_mem _ htd)) _

theorem vulnsMid_some (rels : List (String × Nat)) :
    ∀ G acc res G2, vulnsMid G rels acc = some (res, G2) →
      QueryFrame G G2 ∧ res = acc ++ midSpec G rels := by
  induction rels with
  | nil =>
    intro G acc res G2 h
    simp [vulnsMid] at h
    refine ⟨h.2 ▸ queryFrame_refl G, ?_⟩
    simp [midSpec, h.1]
  | cons td rest ih =>
    intro G acc res G2 h
    obtain ⟨rel, dst⟩ := td
    rw [vulnsMid_cons] at h
    by_cases hrel : rel = "HAS_ASSESSMENT"
    · rw [if_pos hrel] at h
      cases hnd : lookupA G.nodes dst with
      | none =>
        rw [hnd] at h
        exact absurd h (by simp)
      | some ra =>
        rw [hnd] at h
        have hfr1 : QueryFrame G (getRels G dst).2 := getRels_queryFrame G dst
        cases hvi : vulnsInner (getRels G dst).2 (getRels G dst).1 acc with
        | none =>
          rw [hvi] at h
          exact absurd h (by simp)
        | some acc1 =>
          rw [hvi] at h
          obtain ⟨hfr2, hres⟩ := ih _ _ _ _ h
          refine ⟨queryFrame_trans hfr1 hfr2, ?_⟩
          have hacc1 := vulnsInner_some _ _ _ _ hvi
          rw [getRels_fst] at hacc1
          have hp : propsD (getRels G dst).2 = propsD G := queryFrame_propsD hfr1
          have hrf : relsD (getRels G dst).2 = relsD G :=
            funext (queryFrame_relsD hfr1)
          have hms : ∀ rl, midSpec (getRels G dst).2 rl = midSpec G rl := by
            intro rl
            unfold midSpec
            rw [hrf, hp]
          rw [hres, hacc1, hms, hp]
          simp [midSpec, List.filter_cons, beq_iff_eq, hrel]
    · rw [if_neg hrel] at h
      obtain ⟨hfr, hres⟩ := ih _ _ _ _ h
      refine ⟨hfr, ?_⟩
      rw [hres]
      have : midSpec G ((rel, dst) :: rest) = midSpec G rest := by
        simp [midSpec, List.filter_cons, beq_iff_eq, hrel]
      rw [this]

theorem queryFrame_midSpec {G G2 : KnowledgeGraph} (h : QueryFrame G G2) :
    midSpec G2 = midSpec G := by
  funext rl
  unfold midSpec
  rw [funext (queryFrame_relsD h), queryFrame_propsD h]

theorem queryFrame_outerSpecV {G G2 : KnowledgeGraph} (h : QueryFrame G G2) :
    outerSpecV G2 = outerSpecV G := by
  funext ids
  unfold outerSpecV
  rw [queryFrame_midSpec h, funext (queryFrame_relsD h)]

theorem queryFrame_rasContrib {G G2 : KnowledgeGraph} (h : QueryFrame G G2) :
    rasContrib G2 = rasContrib G := by
  funext rl
  unfold rasContrib
  rw [queryFrame_propsD h]

theorem queryFrame_outerSpecR {G G2 : KnowledgeGraph} (h : QueryFrame G G2) :
    outerSpecR G2 = outerSpecR G := by
  funext ids
  unfold outerSpecR
  rw [queryFrame_rasContrib h, funext (queryFrame_relsD h)]

theorem vulnsMid_total (rels : List (String × Nat)) :
    ∀ G acc, EdgesClosed G →
      (∀ td ∈ rels, td.1 = "HAS_ASSESSMENT" → (lookupA G.nodes td.2).isSome) →
      (vulnsMid G rels acc).isSome := by
  induction rels with
  | nil => intro G acc _ _; simp [vulnsMid]
  | cons td rest ih =>
    intro G acc hec h
    obtain ⟨rel, dst⟩ := td
    rw [vulnsMid_cons]
    by_cases hrel : rel = "HAS_ASSESSMENT"
    · rw [if_pos hrel]
      have hs : (lookupA G.nodes dst).isSome :=
        h (rel, dst) (List.mem_cons_self _ _) hrel
      cases hnd : lookupA G.nodes dst with
      | none => rw [hnd] at hs; simp at hs
      | some ra =>
        have hfr1 : QueryFrame G (getRels G dst).2 := getRels_queryFrame G dst
        have hin : (vulnsInner (getRels G dst).2 (getRels G dst).1 acc).isSome := by
          apply vulnsInner_total
          intro td2 htd2 _
          rw [hfr1.1]
          rw [getRels_fst] at htd2
          exact edgesClosed_relsD hec dst td2 htd2
        cases hvi : vulnsInner (getRels G dst).2 (getRels G dst).1 acc with
        | none => rw [hvi] at hin; simp at hin
        | some acc1 =>
          have hec1 : EdgesClosed (getRels G dst).2 :=
            queryFrame_edgesClosed hfr1 hec
          have h1 : ∀ td2 ∈ rest, td2.1 = "HAS_ASSESSMENT" →
              (lookupA (getRels G dst).2.nodes td2.2).isSome := by
            intro td2 htd2 ht
            rw [hfr1.1]
            exact h td2 (List.mem_cons_of_mem _ htd2) ht
          simp only [hnd, hvi]
          exact ih (getRels G dst).2 acc1 hec1 h1
    · rw [if_neg hrel]
      exact ih G acc hec (fun td2 htd2 => h td2 (List.mem_cons_of_mem _ htd2))

theorem vulnsOuter_some (ids : List Nat) :
    ∀ G acc res G2, vulnsOuter G ids acc = some (res, G2) →
      QueryFrame G G2 ∧ res = acc ++ outerSpecV G ids := by
  induction ids with
  | nil =>
    intro G acc res G2 h
    simp [vulnsOuter] at h
    refine ⟨h.2 ▸ queryFrame_refl G, ?_⟩
    simp [outerSpecV, h.1]
  | cons i rest ih =>
    intro G acc res G2 h
    rw [vulnsOuter_cons] at h
    have hfr1 : QueryFrame G (getRels G i).2 := getRels_queryFrame G i
    cases hvm : vulnsMid (getRels G i).2 (getRels G i).1 acc with
    | none => rw [hvm] at h; exact absurd h (by simp)
    | some p =>
      obtain ⟨acc1, G1⟩ := p
      rw [hvm] at h
      obtain ⟨hfrm, hacc1⟩ := vulnsMid_some _ _ _ _ _ hvm
      obtain ⟨hfr2, hres⟩ := ih _ _ _ _ h
      have hfrG1 : QueryFrame G G1 := queryFrame_trans hfr1 hfrm
      refine ⟨queryFrame_trans hfrG1 hfr2, ?_⟩
      rw [getRels_fst] at hacc1
      rw [hres, hacc1, queryFrame_outerSpecV hfrG1,
        queryFrame_midSpec hfr1]
      simp [outerSpecV]

theorem vulnsOuter_total (ids : List Nat) :
    ∀ G acc, EdgesClosed G → (vulnsOuter G ids acc).isSome := by
  induction ids with
  | nil => intro G acc _; simp [vulnsOuter]
  | cons i rest ih =>
    intro G acc hec
    rw [vulnsOuter_cons]
    have hfr1 : QueryFrame G (getRels G i).2 := getRels_queryFrame G i
    have hec1 : EdgesClosed (getRels G i).2 := queryFrame_edgesClosed hfr1 hec
    have hm : (vulnsMid (getRels G i).2 (getRels G i).1 acc).isSome := by
      apply vulnsMid_total _ _ _ hec1
      intro td htd _
      rw [getRels_fst] at htd
      rw [hfr1.1]
      exact edgesClosed_relsD hec i td htd
    cases hvm : vulnsMid (getRels G i).2 (getRels G i).1 acc with
    | none => rw [hvm] at hm; simp at hm
    | some p =>
      obtain ⟨acc1, G1⟩ := p
      have hfrm := (vulnsMid_some _ _ _ _ _ hvm).1
      simp only [hvm]
      exact ih G1 acc1
        (queryFrame_edgesClosed (queryFrame_trans hfr1 hfrm) hec)

theorem vulnsSpec_outer (G : KnowledgeGraph) (name : String) :
    vulnsSpec G name =
      outerSpecV G (find_node_by_prop G "entity_name" (Value.vstr name)) := rfl

theorem get_vulnerabilities_some (G : KnowledgeGraph) (name : String)
    (res : List Props) (G2 : KnowledgeGraph)
    (h : get_vulnerabilities G name = some (res, G2)) :
    QueryFrame G G2 ∧ res = vulnsSpec G name := by
  unfold get_vulnerabilities at h
  obtain ⟨hfr, hres⟩ := vulnsOuter_some _ _ _ _ _ h
  refine ⟨hfr, ?_⟩
  rw [hres, vulnsSpec_outer]
  simp

theorem get_vulnerabilities_total (G : KnowledgeGraph) (name : String)
    (hec : EdgesClosed G) :
    ∃ G2, get_vulnerabilities G name = some (vulnsSpec G name, G2) := by
  have h := vulnsOuter_total
    (find_node_by_prop G "entity_name" (Value.vstr name)) G [] hec
  cases hv : vulnsOuter G
      (find_node_by_prop G "entity_name" (Value.vstr name)) [] with
  | none => rw [hv] at h; simp at h
  | some p =>
    obtain ⟨res, G2⟩ := p
    obtain ⟨_, hres⟩ := vulnsOuter_some _ _ _ _ _ hv
    refine ⟨G2, ?_⟩
    unfold get_vulnerabilities
    rw [hv, vulnsSpec_outer]
    simp at hres
    rw [hres]

/-! ## Query Layer lemmas: `get_risk_assessments` loops -/

theorem rasInner_cons (G : KnowledgeGraph) (rel : String) (dst : Nat)
    (rest : List (String × Nat)) (acc : List Props) :
    rasInner G ((rel, dst) :: rest) acc =
      if rel = "HAS_ASSESSMENT" then
        match lookupA G.nodes dst with
        | some nd => rasInner G rest (acc ++ [nd.props])
        | none => none
      else rasInner G rest acc := rfl

theorem rasOuter_cons (G : KnowledgeGraph) (i : Nat) (rest : List Nat)
    (acc : List Props) :
    rasOuter G (i :: rest) acc =
      match rasInner (getRels G i).2 (getRels G i).1 acc with
      | some acc1 => rasOuter (getRels G i).2 rest acc1
      | none => none := rfl

theorem rasInner_some (G : KnowledgeGraph) (rels : List (String × Nat)) :
    ∀ acc res, rasInner G rels acc = some res →
      res = acc ++ rasContrib G rels := by
  induction rels with
  | nil =>
    intro acc res h
    simp [rasInner] at h
    simp [rasContrib, h]
  | cons td rest ih =>
    intro acc res h
    obtain ⟨rel, dst⟩ := td
    rw [rasInner_cons] at h
    by_cases hrel : rel = "HAS_ASSESSMENT"
    · rw [if_pos hrel] at h
      cases hnd : lookupA G.nodes dst with
      | none =>
        rw [hnd] at h
        exact absurd h (by simp)
      | some nd =>
        rw [hnd] at h
        have hres := ih _ _ h
        subst hres
        simp [rasContrib, List.filter_cons, beq_iff_eq, hrel, propsD, hnd]
    · rw [if_neg hrel] at h
      have hres := ih _ _ h
      subst hres
      simp [rasContrib, List.filter_cons, beq_iff_eq, hrel]

theorem rasInner_total (G : KnowledgeGraph) (rels : List (String × Nat))
    (h : ∀ td ∈ rels, td.1 = "HAS_ASSESSMENT" →
      (lookupA G.nodes td.2).isSome) :
    ∀ acc, (rasInner G rels acc).isSome := by
  induction rels with
  | nil => intro acc; simp [rasInner]
  | cons td rest ih =>
    intro acc
    obtain ⟨rel, dst⟩ := td
    rw [rasInner_cons]
    by_cases hrel : rel = "HAS_ASSESSMENT"
    · rw [if_pos hrel]
      have hs : (lookupA G.nodes dst).isSome :=
        h (rel, dst) (List.mem_cons_self _ _) hrel
      cases hnd : lookupA G.nodes dst with
      | none => rw [hnd] at hs; simp at hs
      | some nd =>
        exact ih (fun td2 htd2 => h td2 (List.mem_cons_of_mem _ htd2)) _
    · rw [if_neg hrel]
      exact ih (fun td2 htd2 => h td2 (List.mem_cons_of_mem _ htd2)) _

theorem rasOuter_some (ids : List Nat) :
    ∀ G acc res G2, rasOuter G ids acc = some (res, G2) →
      QueryFrame G G2 ∧ res = acc ++ outerSpecR G ids := by
  induction ids with
  | nil =>
    intro G acc res G2 h
    simp [rasOuter] at h
    refine ⟨h.2 ▸ queryFrame_refl G, ?_⟩
    simp [outerSpecR, h.1]
  | cons i rest ih =>
    intro G acc res G2 h
    rw [rasOuter_cons] at h
    have hfr1 : QueryFrame G (getRels G i).2 := getRels_queryFrame G i
    cases hri : rasInner (getRels G i).2 (getRels G i).1 acc with
    | none => rw [hri] at h; exact absurd h (by simp)
    | some acc1 =>
      rw [hri] at h
      obtain ⟨hfr2, hres⟩ := ih _ _ _ _ h
      refine ⟨queryFrame_trans hfr1 hfr2, ?_⟩
      have hacc1 := rasInner_some _ _ _ _ hri
      rw [getRels_fst] at hacc1
      rw [hres, hacc1, queryFrame_outerSpecR hfr1,
        queryFrame_rasContrib hfr1]
      simp [outerSpecR]

theorem rasOuter_total (ids : List Nat) :
    ∀ G acc, EdgesClosed G → (rasOuter G ids acc).isSome := by
  induction ids with
  | nil => intro G acc _; simp [rasOuter]
  | cons i rest ih =>
    intro G acc hec
    rw [rasOuter_cons]
    have hfr1 : QueryFrame G (getRels G i).2 := getRels_queryFrame G i
    have hin : (rasInner (getRels G i).2 (getRels G i).1 acc).isSome := by
      apply rasInner_total
      intro td htd _
      rw [hfr1.1]
      rw [getRels_fst] at htd
      exact edgesClosed_relsD hec i td htd
    cases hri : rasInner (getRels G i).2 (getRels G i).1 acc with
    | none => rw [hri] at hin; simp at hin
    | some acc1 =>
      simp only [hri]
      exact ih (getRels G i).2 acc1 (queryFrame_edgesClosed hfr1 hec)

theorem rasSpec_outer (G : KnowledgeGraph) (name : String) :
    rasSpec G name =
      outerSpecR G (find_node_by_prop G "entity_name" (Value.vstr name)) := rfl

theorem get_risk_assessments_some (G : KnowledgeGraph) (name : String)
    (res : List Props) (G2 : KnowledgeGraph)
    (h : get_risk_assessments G name = some (res, G2)) :
    QueryFrame G G2 ∧ res = rasSpec G name := by
  unfold get_risk_assessments at h
  obtain ⟨hfr, hres⟩ := rasOuter_some _ _ _ _ _ h
  refine ⟨hfr, ?_⟩
  rw [hres, rasSpec_outer]
  simp

theorem get_risk_assessments_total (G : KnowledgeGraph) (name : String)
    (hec : EdgesClosed G) :
    ∃ G2, get_risk_assessments G name = some (rasSpec G name, G2) := by
  have h := rasOuter_total
    (find_node_by_prop G "entity_name" (Value.vstr name)) G [] hec
  cases hv : rasOuter G
      (find_node_by_prop G "entity_name" (Value.vstr name)) [] with
  | none => rw [hv] at h; simp at h
  | some p =>
    obtain ⟨res, G2⟩ := p
    obtain ⟨_, hres⟩ := rasOuter_some _ _ _ _ _ hv
    refine ⟨G2, ?_⟩
    unfold get_risk_assessments
    rw [hv, rasSpec_outer]
    simp at hres
    rw [hres]

/-! ## Query Layer lemmas: `get_protocols_using_algorithm` loops -/

theorem protosInner_cons (G : KnowledgeGraph) (rel : String) (dst : Nat)
    (rest : List (String × Nat)) (acc : List Props) :
    protosInner G ((rel, dst) :: rest) acc =
      if rel = "USED_IN" then
        match lookupA G.nodes dst with
        | some nd =>
            if nd.label = "Protocol" then protosInner G rest (acc ++ [nd.props])
            else protosInner G rest acc
        | none => none
      else protosInner G rest acc := rfl

theorem protosOuter_cons (G : KnowledgeGraph) (i : Nat) (rest : List Nat)
    (acc : List Props) :
    protosOuter G (i :: rest) acc =
      match protosInner (getRels G i).2 (getRels G i).1 acc with
      | some acc1 => protosOuter (getRels G i).2 rest acc1
      | none => none := rfl

theorem protosInner_noUsed (G : KnowledgeGraph) (rels : List (String × Nat))
    (h : ∀ td ∈ rels, td.1 ≠ "USED_IN") :
    ∀ acc, protosInner G rels acc = some acc := by
  induction rels with
  | nil => intro acc; simp [protosInner]
  | cons td rest ih =>
    intro acc
    obtain ⟨rel, dst⟩ := td
    rw [protosInner_cons]
    rw [if_neg (h (rel, dst) (List.mem_cons_self _ _))]
    exact ih (fun td2 htd2 => h td2 (List.mem_cons_of_mem _ htd2)) acc

theorem protosOuter_frame (ids : List Nat) :
    ∀ G acc res G2, protosOuter G ids acc = some (res, G2) →
      QueryFrame G G2 := by
  induction ids with
  | nil =>
    intro G acc res G2 h
    simp [protosOuter] at h
    exact h.2 ▸ queryFrame_refl G
  | cons i rest ih =>
    intro G acc res G2 h
    rw [protosOuter_cons] at h
    have hfr1 : QueryFrame G (getRels G i).2 := getRels_queryFrame G i
    cases hpi : protosInner (getRels G i).2 (getRels G i).1 acc with
    | none => rw [hpi] at h; exact absurd h (by simp)
    | some acc1 =>
      rw [hpi] at h
      exact queryFrame_trans hfr1 (ih _ _ _ _ h)

theorem protosOuter_noUsed (ids : List Nat) :
    ∀ G acc, (∀ k, ∀ td ∈ relsD G k, td.1 ≠ "USED_IN") →
      ∃ G2, protosOuter G ids acc = some (acc, G2) := by
  induction ids with
  | nil => intro G acc _; exact ⟨G, by simp [protosOuter]⟩
  | cons i rest ih =>
    intro G acc h
    rw [protosOuter_cons]
    have hfr1 : QueryFrame G (getRels G i).2 := getRels_queryFrame G i
    have hpi : protosInner (getRels G i).2 (getRels G i).1 acc = some acc := by
      apply protosInner_noUsed
      intro td htd
      rw [getRels_fst] at htd
      exact h i td htd
    rw [hpi]
    apply ih (getRels G i).2 acc
    intro k td htd
    rw [queryFrame_relsD hfr1] at htd
    exact h k td htd

/-! ## Store-operation invariant lemmas -/

theorem add_node_fst (G : KnowledgeGraph) (l : String) (p : Props) :
    (add_node G l p).1 = G.next_id := rfl

theorem add_node_next (G : KnowledgeGraph) (l : String) (p : Props) :
    (add_node G l p).2.next_id = G.next_id + 1 := rfl

theorem add_node_rels (G : KnowledgeGraph) (l : String) (p : Props) :
    (add_node G l p).2.relationships = G.relationships := rfl

theorem add_node_lookup_self (G : KnowledgeGraph) (l : String) (p : Props) :
    lookupA (add_node G l p).2.nodes G.next_id = some ⟨l, p⟩ := by
  simp [add_node, lookupA_setK_self]

theorem add_node_nodesWF {G : KnowledgeGraph} (h : NodesWF G)
    (l : String) (p : Props) : NodesWF (add_node G l p).2 := by
  intro k hk
  simp only [add_node] at hk ⊢
  rw [lookupA_setK_isSome] at hk
  rcases hk with hk | hk
  · omega
  · have := h k hk
    omega

theorem add_node_nodesLe {G : KnowledgeGraph} (h : NodesWF G)
    (l : String) (p : Props) : NodesLe G (add_node G l p).2 := by
  intro k v hk
  have hlt : k < G.next_id := h k (by simp [hk])
  simp only [add_node]
  rw [lookupA_setK_ne _ _ _ _ (by omega)]
  exact hk

theorem add_node_relWF {G : KnowledgeGraph} (h : RelWF G)
    (l : String) (p : Props) : RelWF (add_node G l p).2 := by
  intro k hk
  rw [add_node_rels] at hk
  have := h k hk
  rw [add_node_next]
  omega

theorem add_node_edgesClosed {G : KnowledgeGraph} (h : EdgesClosed G)
    (l : String) (p : Props) : EdgesClosed (add_node G l p).2 := by
  intro k lst hk td htd
  rw [add_node_rels] at hk
  have := h k lst hk td htd
  simp only [add_node]
  rw [lookupA_setK_isSome]
  exact Or.inr this

theorem nodesLe_refl (G : KnowledgeGraph) : NodesLe G G := fun _ _ h => h

theorem nodesLe_trans {G G2 G3 : KnowledgeGraph} (h1 : NodesLe G G2)
    (h2 : NodesLe G2 G3) : NodesLe G G3 :=
  fun k v hk => h2 k v (h1 k v hk)

theorem nodesLe_isSome {G G2 : KnowledgeGraph} (h : NodesLe G G2) (k : Nat)
    (hk : (lookupA G.nodes k).isSome) : (lookupA G2.nodes k).isSome := by
  cases hv : lookupA G.nodes k with
  | none => rw [hv] at hk; simp at hk
  | some v => simp [h k v hv]

theorem mapClosed_mono {m : List (Int × Nat)} {G G2 : KnowledgeGraph}
    (h : MapClosed m G) (hle : NodesLe G G2) : MapClosed m G2 :=
  fun k e he => nodesLe_isSome hle e (h k e he)

theorem entAt_mono {m : List (Int × Nat)} {G G2 : KnowledgeGraph}
    (h : EntAt G m) (hle : NodesLe G G2) : EntAt G2 m := by
  intro k e he
  obtain ⟨t, nm, hn⟩ := h k e he
  exact ⟨t, nm, hle e _ hn⟩

theorem add_rel_nodesLe (G : KnowledgeGraph) (s : Nat) (t : String)
    (d : Nat) : NodesLe G (add_relationship G s t d) := fun _ _ h => h

theorem add_rel_nodesWF {G : KnowledgeGraph} (h : NodesWF G) (s : Nat)
    (t : String) (d : Nat) : NodesWF (add_relationship G s t d) := h

theorem add_rel_relWF {G : KnowledgeGraph} (h : RelWF G) {s : Nat}
    (t : String) (d : Nat) (hs : s < G.next_id) :
    RelWF (add_relationship G s t d) := by
  intro k hk
  rw [rels_add_relationship] at hk
  rw [lookupA_setK_isSome] at hk
  rw [next_add_relationship]
  rcases hk with hk | hk
  · omega
  · exact h k hk

theorem add_rel_edgesClosed {G : KnowledgeGraph} (h : EdgesClosed G)
    {s : Nat} (t : String) {d : Nat}
    (hd : (lookupA G.nodes d).isSome) :
    EdgesClosed (add_relationship G s t d) := by
  intro k lst hk td htd
  rw [rels_add_relationship] at hk
  rw [nodes_add_relationship]
  by_cases hks : k = s
  · subst hks
    rw [lookupA_setK_self] at hk
    cases hk
    rcases List.mem_append.mp htd with hm | hm
    · exact edgesClosed_relsD h k td hm
    · simp at hm
      rw [hm]
      exact hd
  · rw [lookupA_setK_ne _ _ _ _ hks] at hk
    exact h k lst hk td htd

theorem add_rel_edgeIn {G : KnowledgeGraph} {s : Nat} {t : String}
    {d : Nat} (k : Nat) (td : String × Nat)
    (h : edgeIn (add_relationship G s t d) k td) :
    edgeIn G k td ∨ td = (t, d) := by
  obtain ⟨l, hl, htd⟩ := h
  rw [rels_add_relationship] at hl
  by_cases hks : k = s
  · subst hks
    rw [lookupA_setK_self] at hl
    cases hl
    rcases List.mem_append.mp htd with hm | hm
    · unfold relsD at hm
      cases hls : lookupA G.relationships k with
      | none => rw [hls] at hm; simp at hm
      | some l0 =>
        rw [hls] at hm
        exact Or.inl ⟨l0, hls, hm⟩
    · simp at hm
      exact Or.inr hm
  · rw [lookupA_setK_ne _ _ _ _ hks] at hl
    exact Or.inl ⟨l, hl, htd⟩

theorem relWF_relsD_empty {G : KnowledgeGraph} (h : RelWF G) {k : Nat}
    (hk : G.next_id ≤ k) : relsD G k = [] := by
  unfold relsD
  cases hl : lookupA G.relationships k with
  | none => rfl
  | some l =>
    have := h k (by simp [hl])
    omega

theorem edgesClosed_of_rels_eq {G G2 : KnowledgeGraph}
    (h : G2.relationships = G.relationships) (hle : NodesLe G G2)
    (hec : EdgesClosed G) : EdgesClosed G2 := by
  intro k l hk td htd
  rw [h] at hk
  exact nodesLe_isSome hle td.2 (hec k l hk td htd)

theorem relWF_of_rels_eq {G G2 : KnowledgeGraph}
    (h : G2.relationships = G.relationships)
    (hn : G.next_id ≤ G2.next_id) (hrw : RelWF G) : RelWF G2 := by
  intro k hk
  rw [h] at hk
  have := hrw k hk
  omega

/-! ## Builder phase lemmas: node-only phases -/

theorem relsD_add_node (G : KnowledgeGraph) (l : String) (p : Props) :
    relsD (add_node G l p).2 = relsD G := rfl

theorem edgeIn_add_node (G : KnowledgeGraph) (l : String) (p : Props) :
    edgeIn (add_node G l p).2 = edgeIn G := rfl

theorem buildEntities_cons (G : KnowledgeGraph) (r : EntityRow)
    (rest : List EntityRow) (emap : List (Int × Nat)) :
    buildEntities G (r :: rest) emap =
      buildEntities (add_node G "Entity" (entProps r)).2 rest
        (setK emap r.entity_id (add_node G "Entity" (entProps r)).1) := rfl

theorem buildEntities_spec (rows : List EntityRow) :
    ∀ G emap, NodesWF G → EntAt G emap → MapBound emap G.next_id →
      NodesWF (buildEntities G rows emap).1 ∧
      (buildEntities G rows emap).1.next_id = G.next_id + rows.length ∧
      (buildEntities G rows emap).1.relationships = G.relationships ∧
      NodesLe G (buildEntities G rows emap).1 ∧
      EntAt (buildEntities G rows emap).1 (buildEntities G rows emap).2 ∧
      MapBound (buildEntities G rows emap).2
        (buildEntities G rows emap).1.next_id ∧
      (∀ k, (lookupA (buildEntities G rows emap).2 k).isSome ↔
        (k ∈ rows.map EntityRow.entity_id ∨ (lookupA emap k).isSome)) := by
  induction rows with
  | nil =>
    intro G emap hWF hEA hMB
    refine ⟨hWF, by simp [buildEntities], rfl, nodesLe_refl G, hEA, hMB, ?_⟩
    intro k
    simp [buildEntities]
  | cons r rest ih =>
    intro G emap hWF hEA hMB
    rw [buildEntities_cons]
    have hWF1 : NodesWF (add_node G "Entity" (entProps r)).2 :=
      add_node_nodesWF hWF _ _
    have hle1 : NodesLe G (add_node G "Entity" (entProps r)).2 :=
      add_node_nodesLe hWF _ _
    have hEA1 : EntAt (add_node G "Entity" (entProps r)).2
        (setK emap r.entity_id (add_node G "Entity" (entProps r)).1) := by
      intro k e he
      by_cases hk : k = r.entity_id
      · subst hk
        rw [lookupA_setK_self] at he
        rw [add_node_fst] at he
        injection he with he2
        subst he2
        exact ⟨r.entity_type, r.entity_name, add_node_lookup_self G _ _⟩
      · rw [lookupA_setK_ne _ _ _ _ hk] at he
        exact entAt_mono hEA hle1 k e he
    have hMB1 : MapBound (setK emap r.entity_id
          (add_node G "Entity" (entProps r)).1)
        (add_node G "Entity" (entProps r)).2.next_id := by
      intro k e he
      rw [add_node_next]
      by_cases hk : k = r.entity_id
      · subst hk
        rw [lookupA_setK_self] at he
        rw [add_node_fst] at he
        injection he with he2
        omega
      · rw [lookupA_setK_ne _ _ _ _ hk] at he
        have := hMB k e he
        omega
    obtain ⟨c1, c2, c3, c4, c5, c6, c7⟩ := ih _ _ hWF1 hEA1 hMB1
    refine ⟨c1, ?_, ?_, nodesLe_trans hle1 c4, c5, c6, ?_⟩
    · rw [c2, add_node_next]
      simp
      omega
    · rw [c3, add_node_rels]
    · intro k
      rw [c7 k, lookupA_setK_isSome]
      rw [List.map_cons, List.mem_cons]
      tauto

theorem buildVulns_cons (G : KnowledgeGraph) (r : VulnRow)
    (rest : List VulnRow) (vmap : List (Int × Nat)) :
    buildVulns G (r :: rest) vmap =
      buildVulns (add_node G "Vulnerability" (vulnProps r)).2 rest
        (setK vmap r.vuln_id (add_node G "Vulnerability" (vulnProps r)).1) := rfl

theorem buildVulns_spec (rows : List VulnRow) :
    ∀ G vmap, NodesWF G → MapClosed vmap G →
      NodesWF (buildVulns G rows vmap).1 ∧
      (buildVulns G rows vmap).1.next_id = G.next_id + rows.length ∧
      (buildVulns G rows vmap).1.relationships = G.relationships ∧
      NodesLe G (buildVulns G rows vmap).1 ∧
      MapClosed (buildVulns G rows vmap).2 (buildVulns G rows vmap).1 ∧
      (∀ k, (lookupA (buildVulns G rows vmap).2 k).isSome ↔
        (k ∈ rows.map VulnRow.vuln_id ∨ (lookupA vmap k).isSome)) := by
  induction rows with
  | nil =>
    intro G vmap hWF hMC
    refine ⟨hWF, by simp [buildVulns], rfl, nodesLe_refl G, hMC, ?_⟩
    intro k
    simp [buildVulns]
  | cons r rest ih =>
    intro G vmap hWF hMC
    rw [buildVulns_cons]
    have hWF1 : NodesWF (add_node G "Vulnerability" (vulnProps r)).2 :=
      add_node_nodesWF hWF _ _
    have hle1 : NodesLe G (add_node G "Vulnerability" (vulnProps r)).2 :=
      add_node_nodesLe hWF _ _
    have hMC1 : MapClosed (setK vmap r.vuln_id
          (add_node G "Vulnerability" (vulnProps r)).1)
        (add_node G "Vulnerability" (vulnProps r)).2 := by
      intro k e he
      by_cases hk : k = r.vuln_id
      · subst hk
        rw [lookupA_setK_self] at he
        rw [add_node_fst] at he
        injection he with he2
        subst he2
        simp [add_node_lookup_self]
      · rw [lookupA_setK_ne _ _ _ _ hk] at he
        exact nodesLe_isSome hle1 e (hMC k e he)
    obtain ⟨c1, c2, c3, c4, c5, c6⟩ := ih _ _ hWF1 hMC1
    refine ⟨c1, ?_, ?_, nodesLe_trans hle1 c4, c5, ?_⟩
    · rw [c2, add_node_next]
      simp
      omega
    · rw [c3, add_node_rels]
    · intro k
      rw [c6 k, lookupA_setK_isSome]
      rw [List.map_cons, List.mem_cons]
      tauto

theorem buildLirs_cons (G : KnowledgeGraph) (r : LirRow)
    (rest : List LirRow) (lmap : List (Int × Nat)) :
    buildLirs G (r :: rest) lmap =
      buildLirs (add_node G "LIR" (lirProps r)).2 rest
        (setK lmap r.lir_id (add_node G "LIR" (lirProps r)).1) := rfl

theorem buildLirs_spec (rows : List LirRow) :
    ∀ G lmap, NodesWF G → MapClosed lmap G →
      NodesWF (buildLirs G rows lmap).1 ∧
      (buildLirs G rows lmap).1.next_id = G.next_id + rows.length ∧
      (buildLirs G rows lmap).1.relationships = G.relationships ∧
      NodesLe G (buildLirs G rows lmap).1 ∧
      MapClosed (buildLirs G rows lmap).2 (buildLirs G rows lmap).1 ∧
      (∀ k, (lookupA (buildLirs G rows lmap).2 k).isSome ↔
        (k ∈ rows.map LirRow.lir_id ∨ (lookupA lmap k).isSome)) := by
  induction rows with
  | nil =>
    intro G lmap hWF hMC
    refine ⟨hWF, by simp [buildLirs], rfl, nodesLe_refl G, hMC, ?_⟩
    intro k
    simp [buildLirs]
  | cons r rest ih =>
    intro G lmap hWF hMC
    rw [buildLirs_cons]
    have hWF1 : NodesWF (add_node G "LIR" (lirProps r)).2 :=
      add_node_nodesWF hWF _ _
    have hle1 : NodesLe G (add_node G "LIR" (lirProps r)).2 :=
      add_node_nodesLe hWF _ _
    have hMC1 : MapClosed (setK lmap r.lir_id
          (add_node G "LIR" (lirProps r)).1)
        (add_node G "LIR" (lirProps r)).2 := by
      intro k e he
      by_cases hk : k = r.lir_id
      · subst hk
        rw [lookupA_setK_self] at he
        rw [add_node_fst] at he
        injection he with he2
        subst he2
        simp [add_node_lookup_self]
      · rw [lookupA_setK_ne _ _ _ _ hk] at he
        exact nodesLe_isSome hle1 e (hMC k e he)
    obtain ⟨c1, c2, c3, c4, c5, c6⟩ := ih _ _ hWF1 hMC1
    refine ⟨c1, ?_, ?_, nodesLe_trans hle1 c4, c5, ?_⟩
    · rw [c2, add_node_next]
      simp
      omega
    · rw [c3, add_node_rels]
    · intro k
      rw [c6 k, lookupA_setK_isSome]
      rw [List.map_cons, List.mem_cons]
      tauto

/-! ## Builder phase lemmas: `IS_ENTITY`-linked phases -/

theorem buildAlgorithms_cons (G : KnowledgeGraph) (r : AlgorithmRow)
    (rest : List AlgorithmRow) (emap : List (Int × Nat)) :
    buildAlgorithms G (r :: rest) emap =
      match lookupA emap r.entity_id with
      | some e => buildAlgorithms
          (add_relationship (add_node G "Algorithm" (algoProps r)).2
            (add_node G "Algorithm" (algoProps r)).1 "IS_ENTITY" e) rest emap
      | none => Except.error (add_node G "Algorithm" (algoProps r)).2 := rfl

theorem buildAlgorithms_spec (rows : List AlgorithmRow) :
    ∀ G emap, (∀ r ∈ rows, (lookupA emap r.entity_id).isSome) →
      NodesWF G → RelWF G → EdgesClosed G → MapClosed emap G →
      ∃ G2, buildAlgorithms G rows emap = Except.ok G2 ∧
        NodesWF G2 ∧ RelWF G2 ∧ EdgesClosed G2 ∧
        G2.next_id = G.next_id + rows.length ∧ NodesLe G G2 ∧
        (∀ j, j < G.next_id → relsD G2 j = relsD G j) ∧
        (∀ k td, edgeIn G2 k td → edgeIn G k td ∨ td.1 = "IS_ENTITY") := by
  induction rows with
  | nil =>
    intro G emap _ hWF hRW hEC _
    exact ⟨G, rfl, hWF, hRW, hEC, by simp, nodesLe_refl G,
      fun j _ => rfl, fun k td h => Or.inl h⟩
  | cons r rest ih =>
    intro G emap hres hWF hRW hEC hMC
    rw [buildAlgorithms_cons]
    have hs := hres r (List.mem_cons_self _ _)
    cases he : lookupA emap r.entity_id with
    | none => rw [he] at hs; simp at hs
    | some e =>
      have hWF1 : NodesWF (add_node G "Algorithm" (algoProps r)).2 :=
        add_node_nodesWF hWF _ _
      have hle1 : NodesLe G (add_node G "Algorithm" (algoProps r)).2 :=
        add_node_nodesLe hWF _ _
      have hMC1 : MapClosed emap (add_node G "Algorithm" (algoProps r)).2 :=
        mapClosed_mono hMC hle1
      have hWFe : NodesWF (add_relationship
          (add_node G "Algorithm" (algoProps r)).2
          (add_node G "Algorithm" (algoProps r)).1 "IS_ENTITY" e) :=
        add_rel_nodesWF hWF1 _ _ _
      have hRWe : RelWF (add_relationship
          (add_node G "Algorithm" (algoProps r)).2
          (add_node G "Algorithm" (algoProps r)).1 "IS_ENTITY" e) := by
        apply add_rel_relWF (add_node_relWF hRW _ _)
        rw [add_node_fst, add_node_next]
        omega
      have hECe : EdgesClosed (add_relationship
          (add_node G "Algorithm" (algoProps r)).2
          (add_node G "Algorithm" (algoProps r)).1 "IS_ENTITY" e) := by
        apply add_rel_edgesClosed (add_node_edgesClosed hEC _ _)
        exact hMC1 r.entity_id e he
      have hMCe : MapClosed emap (add_relationship
          (add_node G "Algorithm" (algoProps r)).2
          (add_node G "Algorithm" (algoProps r)).1 "IS_ENTITY" e) :=
        mapClosed_mono hMC1 (add_rel_nodesLe _ _ _ _)
      obtain ⟨G2, hok, c1, c2, c3, c4, c5, c6, c7⟩ :=
        ih _ emap (fun r2 hr2 => hres r2 (List.mem_cons_of_mem _ hr2))
          hWFe hRWe hECe hMCe
      refine ⟨G2, hok, c1, c2, c3, ?_, ?_, ?_, ?_⟩
      · rw [c4, next_add_relationship, add_node_next]
        simp
        omega
      · exact nodesLe_trans hle1 (nodesLe_trans (add_rel_nodesLe _ _ _ _) c5)
      · intro j hj
        rw [c6 j (by rw [next_add_relationship, add_node_next]; omega)]
        rw [relsD_add_relationship]
        rw [if_neg (by rw [add_node_fst]; omega)]
        rw [relsD_add_node]
      · intro k td h
        rcases c7 k td h with h2 | h2
        · rcases add_rel_edgeIn k td h2 with h3 | h3
          · rw [edgeIn_add_node] at h3
            exact Or.inl h3
          · rw [h3]
            exact Or.inr rfl
        · exact Or.inr h2

theorem buildAlgorithms_err (rows : List AlgorithmRow) :
    ∀ G emap, (∃ r ∈ rows, lookupA emap r.entity_id = none) →
      ∃ g, buildAlgorithms G rows emap = Except.error g := by
  induction rows with
  | nil => intro G emap h; simp at h
  | cons r rest ih =>
    intro G emap h
    rw [buildAlgorithms_cons]
    cases he : lookupA emap r.entity_id with
    | none => exact ⟨_, rfl⟩
    | some e =>
      apply ih
      obtain ⟨r2, hr2, hnone⟩ := h
      rcases List.mem_cons.mp hr2 with hr | hr
      · subst hr
        rw [he] at hnone
        cases hnone
      · exact ⟨r2, hr, hnone⟩

theorem buildProtocols_cons (G : KnowledgeGraph) (r : ProtocolRow)
    (rest : List ProtocolRow) (emap : List (Int × Nat)) :
    buildProtocols G (r :: rest) emap =
      match lookupA emap r.entity_id with
      | some e => buildProtocols
          (add_relationship (add_node G "Protocol" (protoProps r)).2
            (add_node G "Protocol" (protoProps r)).1 "IS_ENTITY" e) rest emap
      | none => Except.error (add_node G "Protocol" (protoProps r)).2 := rfl

theorem buildProtocols_spec (rows : List ProtocolRow) :
    ∀ G emap, (∀ r ∈ rows, (lookupA emap r.entity_id).isSome) →
      NodesWF G → RelWF G → EdgesClosed G → MapClosed emap G →
      ∃ G2, buildProtocols G rows emap = Except.ok G2 ∧
        NodesWF G2 ∧ RelWF G2 ∧ EdgesClosed G2 ∧
        G2.next_id = G.next_id + rows.length ∧ NodesLe G G2 ∧
        (∀ j, j < G.next_id → relsD G2 j = relsD G j) ∧
        (∀ k td, edgeIn G2 k td → edgeIn G k td ∨ td.1 = "IS_ENTITY") := by
  induction rows with
  | nil =>
    intro G emap _ hWF hRW hEC _
    exact ⟨G, rfl, hWF, hRW, hEC, by simp, nodesLe_refl G,
      fun j _ => rfl, fun k td h => Or.inl h⟩
  | cons r rest ih =>
    intro G emap hres hWF hRW hEC hMC
    rw [buildProtocols_cons]
    have hs := hres r (List.mem_cons_self _ _)
    cases he : lookupA emap r.entity_id with
    | none => rw [he] at hs; simp at hs
    | some e =>
      have hWF1 : NodesWF (add_node G "Protocol" (protoProps r)).2 :=
        add_node_nodesWF hWF _ _
      have hle1 : NodesLe G (add_node G "Protocol" (protoProps r)).2 :=
        add_node_nodesLe hWF _ _
      have hMC1 : MapClosed emap (add_node G "Protocol" (protoProps r)).2 :=
        mapClosed_mono hMC hle1
      have hWFe : NodesWF (add_relationship
          (add_node G "Protocol" (protoProps r)).2
          (add_node G "Protocol" (protoProps r)).1 "IS_ENTITY" e) :=
        add_rel_nodesWF hWF1 _ _ _
      have hRWe : RelWF (add_relationship
          (add_node G "Protocol" (protoProps r)).2
          (add_node G "Protocol" (protoProps r)).1 "IS_ENTITY" e) := by
        apply add_rel_relWF (add_node_relWF hRW _ _)
        rw [add_node_fst, add_node_next]
        omega
      have hECe : EdgesClosed (add_relationship
          (add_node G "Protocol" (protoProps r)).2
          (add_node G "Protocol" (protoProps r)).1 "IS_ENTITY" e) := by
        apply add_rel_edgesClosed (add_node_edgesClosed hEC _ _)
        exact hMC1 r.entity_id e he
      have hMCe : MapClosed emap (add_relationship
          (add_node G "Protocol" (protoProps r)).2
          (add_node G "Protocol" (protoProps r)).1 "IS_ENTITY" e) :=
        mapClosed_mono hMC1 (add_rel_nodesLe _ _ _ _)
      obtain ⟨G2, hok, c1, c2, c3, c4, c5, c6, c7⟩ :=
        ih _ emap (fun r2 hr2 => hres r2 (List.mem_cons_of_mem _ hr2))
          hWFe hRWe hECe hMCe
      refine ⟨G2, hok, c1, c2, c3, ?_, ?_, ?_, ?_⟩
      · rw [c4, next_add_relationship, add_node_next]
        simp
        omega
      · exact nodesLe_trans hle1 (nodesLe_trans (add_rel_nodesLe _ _ _ _) c5)
      · intro j hj
        rw [c6 j (by rw [next_add_relationship, add_node_next]; omega)]
        rw [relsD_add_relationship]
        rw [if_neg (by rw [add_node_fst]; omega)]
        rw [relsD_add_node]
      · intro k td h
        rcases c7 k td h with h2 | h2
        · rcases add_rel_edgeIn k td h2 with h3 | h3
          · rw [edgeIn_add_node] at h3
            exact Or.inl h3
          · rw [h3]
            exact Or.inr rfl
        · exact Or.inr h2

theorem buildProtocols_err (rows : List ProtocolRow) :
    ∀ G emap, (∃ r ∈ rows, lookupA emap r.entity_id = none) →
      ∃ g, buildProtocols G rows emap = Except.error g := by
  induction rows with
  | nil => intro G emap h; simp at h
  | cons r rest ih =>
    intro G emap h
    rw [buildProtocols_cons]
    cases he : lookupA emap r.entity_id with
    | none => exact ⟨_, rfl⟩
    | some e =>
      apply ih
      obtain ⟨r2, hr2, hnone⟩ := h
      rcases List.mem_cons.mp hr2 with hr | hr
      · subst hr
        rw [he] at hnone
        cases hnone
      · exact ⟨r2, hr, hnone⟩

theorem buildCertificates_cons (G : KnowledgeGraph) (r : CertificateRow)
    (rest : List CertificateRow) (emap : List (Int × Nat)) :
    buildCertificates G (r :: rest) emap =
      match lookupA emap r.entity_id with
      | some e => buildCertificates
          (add_relationship (add_node G "Certificate" (certProps r)).2
            (add_node G "Certificate" (certProps r)).1 "IS_ENTITY" e) rest emap
      | none => Except.error (add_node G "Certificate" (certProps r)).2 := rfl

theorem buildCertificates_spec (rows : List CertificateRow) :
    ∀ G emap, (∀ r ∈ rows, (lookupA emap r.entity_id).isSome) →
      NodesWF G → RelWF G → EdgesClosed G → MapClosed emap G →
      ∃ G2, buildCertificates G rows emap = Except.ok G2 ∧
        NodesWF G2 ∧ RelWF G2 ∧ EdgesClosed G2 ∧
        G2.next_id = G.next_id + rows.length ∧ NodesLe G G2 ∧
        (∀ j, j < G.next_id → relsD G2 j = relsD G j) ∧
        (∀ k td, edgeIn G2 k td → edgeIn G k td ∨ td.1 = "IS_ENTITY") := by
  induction rows with
  | nil =>
    intro G emap _ hWF hRW hEC _
    exact ⟨G, rfl, hWF, hRW, hEC, by simp, nodesLe_refl G,
      fun j _ => rfl, fun k td h => Or.inl h⟩
  | cons r rest ih =>
    intro G emap hres hWF hRW hEC hMC
    rw [buildCertificates_cons]
    have hs := hres r (List.mem_cons_self _ _)
    cases he : lookupA emap r.entity_id with
    | none => rw [he] at hs; simp at hs
    | some e =>
      have hWF1 : NodesWF (add_node G "Certificate" (certProps r)).2 :=
        add_node_nodesWF hWF _ _
      have hle1 : NodesLe G (add_node G "Certificate" (certProps r)).2 :=
        add_node_nodesLe hWF _ _
      have hMC1 : MapClosed emap (add_node G "Certificate" (certProps r)).2 :=
        mapClosed_mono hMC hle1
      have hWFe : NodesWF (add_relationship
          (add_node G "Certificate" (certProps r)).2
          (add_node G "Certificate" (certProps r)).1 "IS_ENTITY" e) :=
        add_rel_nodesWF hWF1 _ _ _
      have hRWe : RelWF (add_relationship
          (add_node G "Certificate" (certProps r)).2
          (add_node G "Certificate" (certProps r)).1 "IS_ENTITY" e) := by
        apply add_rel_relWF (add_node_relWF hRW _ _)
        rw [add_node_fst, add_node_next]
        omega
      have hECe : EdgesClosed (add_relationship
          (add_node G "Certificate" (certProps r)).2
          (add_node G "Certificate" (certProps r)).1 "IS_ENTITY" e) := by
        apply add_rel_edgesClosed (add_node_edgesClosed hEC _ _)
        exact hMC1 r.entity_id e he
      have hMCe : MapClosed emap (add_relationship
          (add_node G "Certificate" (certProps r)).2
          (add_node G "Certificate" (certProps r)).1 "IS_ENTITY" e) :=
        mapClosed_mono hMC1 (add_rel_nodesLe _ _ _ _)
      obtain ⟨G2, hok, c1, c2, c3, c4, c5, c6, c7⟩ :=
        ih _ emap (fun r2 hr2 => hres r2 (List.mem_cons_of_mem _ hr2))
          hWFe hRWe hECe hMCe
      refine ⟨G2, hok, c1, c2, c3, ?_, ?_, ?_, ?_⟩
      · rw [c4, next_add_relationship, add_node_next]
        simp
        omega
      · exact nodesLe_trans hle1 (nodesLe_trans (add_rel_nodesLe _ _ _ _) c5)
      · intro j hj
        rw [c6 j (by rw [next_add_relationship, add_node_next]; omega)]
        rw [relsD_add_relationship]
        rw [if_neg (by rw [add_node_fst]; omega)]
        rw [relsD_add_node]
      · intro k td h
        rcases c7 k td h with h2 | h2
        · rcases add_rel_edgeIn k td h2 with h3 | h3
          · rw [edgeIn_add_node] at h3
            exact Or.inl h3
          · rw [h3]
            exact Or.inr rfl
        · exact Or.inr h2

theorem buildCertificates_err (rows : List CertificateRow) :
    ∀ G emap, (∃ r ∈ rows, lookupA emap r.entity_id = none) →
      ∃ g, buildCertificates G rows emap = Except.error g := by
  induction rows with
  | nil => intro G emap h; simp at h
  | cons r rest ih =>
    intro G emap h
    rw [buildCertificates_cons]
    cases he : lookupA emap r.entity_id with
    | none => exact ⟨_, rfl⟩
    | some e =>
      apply ih
      obtain ⟨r2, hr2, hnone⟩ := h
      rcases List.mem_cons.mp hr2 with hr | hr
      · subst hr
        rw [he] at hnone
        cases hnone
      · exact ⟨r2, hr, hnone⟩

/-! ## Builder phase lemmas: the risk-assessment phase -/

theorem buildRisk_cons (G : KnowledgeGraph) (r : RiskRow)
    (rest : List RiskRow) (emap vmap lmap : List (Int × Nat)) :
    buildRisk G (r :: rest) emap vmap lmap =
      match lookupA emap r.entity_id with
      | none => Except.error (add_node G "RiskAssessment" (raProps r)).2
      | some e => buildRisk (riskStepG G r e vmap lmap) rest emap vmap lmap := by
  conv_lhs => rw [buildRisk]
  cases he : lookupA emap r.entity_id with
  | none => rfl
  | some e => rfl

theorem riskStepG_eq (G : KnowledgeGraph) (r : RiskRow) (e : Nat)
    (vmap lmap : List (Int × Nat)) :
    riskStepG G r e vmap lmap =
      optAdd (optAdd (add_relationship (add_node G "RiskAssessment" (raProps r)).2
          e "HAS_ASSESSMENT" (add_node G "RiskAssessment" (raProps r)).1)
        (add_node G "RiskAssessment" (raProps r)).1 "HAS_VULNERABILITY"
        (lookupA vmap r.vuln_id))
        (add_node G "RiskAssessment" (raProps r)).1 "HAS_RISK"
        (lookupA lmap r.lir_id) := by
  unfold riskStepG optAdd
  cases lookupA vmap r.vuln_id <;> cases lookupA lmap r.lir_id <;> rfl

theorem optAdd_next (H : KnowledgeGraph) (s : Nat) (t : String)
    (o : Option Nat) : (optAdd H s t o).next_id = H.next_id := by
  cases o <;> rfl

theorem optAdd_nodes (H : KnowledgeGraph) (s : Nat) (t : String)
    (o : Option Nat) : (optAdd H s t o).nodes = H.nodes := by
  cases o <;> rfl

theorem optAdd_relWF {H : KnowledgeGraph} (h : RelWF H) {s : Nat}
    (t : String) (o : Option Nat) (hs : s < H.next_id) :
    RelWF (optAdd H s t o) := by
  cases o with
  | none => exact h
  | some d => exact add_rel_relWF h t d hs

theorem optAdd_edgesClosed {H : KnowledgeGraph} (h : EdgesClosed H)
    {s : Nat} (t : String) {o : Option Nat}
    (ho : ∀ d, o = some d → (lookupA H.nodes d).isSome) :
    EdgesClosed (optAdd H s t o) := by
  cases o with
  | none => exact h
  | some d => exact add_rel_edgesClosed h t (ho d rfl)

theorem optAdd_relsD_ne {H : KnowledgeGraph} {s : Nat} {t : String}
    {o : Option Nat} (j : Nat) (hj : j ≠ s) :
    relsD (optAdd H s t o) j = relsD H j := by
  cases o with
  | none => rfl
  | some d => rw [optAdd, relsD_add_relationship, if_neg hj]

theorem optAdd_relsD_self (H : KnowledgeGraph) (s : Nat) (t : String)
    (o : Option Nat) :
    relsD (optAdd H s t o) s =
      relsD H s ++ (match o with | some d => [(t, d)] | none => []) := by
  cases o with
  | none => simp [optAdd]
  | some d => rw [optAdd, relsD_add_relationship, if_pos rfl]

theorem optAdd_edgeIn {H : KnowledgeGraph} {s : Nat} {t : String}
    {o : Option Nat} (k : Nat) (td : String × Nat)
    (h : edgeIn (optAdd H s t o) k td) : edgeIn H k td ∨ td.1 = t := by
  cases o with
  | none => exact Or.inl h
  | some d =>
    rcases add_rel_edgeIn k td h with h2 | h2
    · exact Or.inl h2
    · rw [h2]
      exact Or.inr rfl

theorem riskStepG_facts (G : KnowledgeGraph) (r : RiskRow) (e : Nat)
    (vmap lmap : List (Int × Nat))
    (hWF : NodesWF G) (hRW : RelWF G) (hEC : EdgesClosed G)
    (hMCv : MapClosed vmap G) (hMCl : MapClosed lmap G)
    (heB : e < G.next_id) :
    (riskStepG G r e vmap lmap).next_id = G.next_id + 1 ∧
    NodesWF (riskStepG G r e vmap lmap) ∧
    RelWF (riskStepG G r e vmap lmap) ∧
    EdgesClosed (riskStepG G r e vmap lmap) ∧
    NodesLe G (riskStepG G r e vmap lmap) ∧
    lookupA (riskStepG G r e vmap lmap).nodes G.next_id =
      some ⟨"RiskAssessment", raProps r⟩ ∧
    relsD (riskStepG G r e vmap lmap) e =
      relsD G e ++ [("HAS_ASSESSMENT", G.next_id)] ∧
    (∀ j, j ≠ e → j ≠ G.next_id →
      relsD (riskStepG G r e vmap lmap) j = relsD G j) ∧
    relsD (riskStepG G r e vmap lmap) G.next_id =
      (match lookupA vmap r.vuln_id with
       | some v => [("HAS_VULNERABILITY", v)]
       | none => []) ++
      (match lookupA lmap r.lir_id with
       | some l => [("HAS_RISK", l)]
       | none => []) ∧
    (∀ k td, edgeIn (riskStepG G r e vmap lmap) k td →
      edgeIn G k td ∨ td.1 = "HAS_ASSESSMENT" ∨
      td.1 = "HAS_VULNERABILITY" ∨ td.1 = "HAS_RISK") := by
  have hle1 : NodesLe G (add_node G "RiskAssessment" (raProps r)).2 :=
    add_node_nodesLe hWF _ _
  have hne : e ≠ G.next_id := by omega
  rw [riskStepG_eq]
  refine ⟨?_, ?_, ?_, ?_, ?_, ?_, ?_, ?_, ?_, ?_⟩
  · rw [optAdd_next, optAdd_next, next_add_relationship, add_node_next]
  · intro k hk
    rw [optAdd_nodes, optAdd_nodes, nodes_add_relationship] at hk
    rw [optAdd_next, optAdd_next, next_add_relationship]
    exact add_node_nodesWF hWF _ _ k hk
  · apply optAdd_relWF _ _ _ ?h1
    case h1 =>
      rw [optAdd_next, next_add_relationship, add_node_fst, add_node_next]
      omega
    apply optAdd_relWF _ _ _ ?h2
    case h2 =>
      rw [next_add_relationship, add_node_fst, add_node_next]
      omega
    apply add_rel_relWF (add_node_relWF hRW _ _)
    rw [add_node_next]
    omega
  · apply optAdd_edgesClosed _ _ ?c1
    case c1 =>
      intro d hd
      rw [optAdd_nodes, nodes_add_relationship]
      exact nodesLe_isSome hle1 d (hMCl r.lir_id d hd)
    apply optAdd_edgesClosed _ _ ?c2
    case c2 =>
      intro d hd
      rw [nodes_add_relationship]
      exact nodesLe_isSome hle1 d (hMCv r.vuln_id d hd)
    apply add_rel_edgesClosed (add_node_edgesClosed hEC _ _)
    rw [add_node_fst, add_node_lookup_self]
    rfl
  · intro k v hk
    rw [optAdd_nodes, optAdd_nodes, nodes_add_relationship]
    exact hle1 k v hk
  · rw [optAdd_nodes, optAdd_nodes, nodes_add_relationship]
    exact add_node_lookup_self G _ _
  · rw [optAdd_relsD_ne e (by rw [add_node_fst]; exact hne),
      optAdd_relsD_ne e (by rw [add_node_fst]; exact hne),
      relsD_add_relationship, if_pos rfl, relsD_add_node, add_node_fst]
  · intro j hje hjn
    rw [optAdd_relsD_ne j (by rw [add_node_fst]; exact hjn),
      optAdd_relsD_ne j (by rw [add_node_fst]; exact hjn),
      relsD_add_relationship, if_neg hje, relsD_add_node]
  · have h0 : relsD (add_relationship (add_node G "RiskAssessment"
        (raProps r)).2 e "HAS_ASSESSMENT"
        (add_node G "RiskAssessment" (raProps r)).1)
        (add_node G "RiskAssessment" (raProps r)).1 =
        relsD G (add_node G "RiskAssessment" (raProps r)).1 := by
      rw [relsD_add_relationship, add_node_fst,
        if_neg (fun h2 => hne h2.symm)]
      rfl
    have h1 : relsD G (add_node G "RiskAssessment" (raProps r)).1 = [] := by
      rw [add_node_fst]
      exact relWF_relsD_empty hRW (le_refl _)
    conv =>
      lhs
      rw [show (G.next_id : Nat) = (add_node G "RiskAssessment" (raProps r)).1
        from rfl]
    rw [optAdd_relsD_self, optAdd_relsD_self, h0, h1]
    simp
  · intro k td h
    rcases optAdd_edgeIn k td h with h2 | h2
    · rcases optAdd_edgeIn k td h2 with h3 | h3
      · rcases add_rel_edgeIn k td h3 with h4 | h4
        · rw [edgeIn_add_node] at h4
          exact Or.inl h4
        · rw [h4]
          exact Or.inr (Or.inl rfl)
      · exact Or.inr (Or.inr (Or.inl h3))
    · exact Or.inr (Or.inr (Or.inr h2))

theorem buildRisk_steps (rows : List RiskRow) :
    ∀ G emap vmap lmap b0 rest,
      (∀ r ∈ rows, (lookupA emap r.entity_id).isSome) →
      BuildInv G emap vmap lmap b0 →
      ∃ Gp, buildRisk G (rows ++ rest) emap vmap lmap =
          buildRisk Gp rest emap vmap lmap ∧
        BuildInv Gp emap vmap lmap b0 ∧
        Gp.next_id = G.next_id + rows.length ∧ NodesLe G Gp ∧
        (∀ j, ∃ tail, relsD Gp j = relsD G j ++ tail) ∧
        (∀ j, b0 ≤ j → j < G.next_id → relsD Gp j = relsD G j) ∧
        (∀ k td, edgeIn Gp k td → edgeIn G k td ∨ td.1 = "HAS_ASSESSMENT" ∨
          td.1 = "HAS_VULNERABILITY" ∨ td.1 = "HAS_RISK") := by
  induction rows with
  | nil =>
    intro G emap vmap lmap b0 rest _ hinv
    refine ⟨G, by simp, hinv, by simp, nodesLe_refl G, ?_, ?_, ?_⟩
    · intro j
      exact ⟨[], by simp⟩
    · intro j _ _
      rfl
    · intro k td h
      exact Or.inl h
  | cons r rows2 ih =>
    intro G emap vmap lmap b0 rest hres hinv
    obtain ⟨hWF, hRW, hEC, hMCe, hMCv, hMCl, hMB, hb0⟩ := hinv
    have hs := hres r (List.mem_cons_self _ _)
    cases he : lookupA emap r.entity_id with
    | none => rw [he] at hs; simp at hs
    | some e =>
      have heb0 : e < b0 := hMB _ e he
      have heB : e < G.next_id := by omega
      obtain ⟨f1, f2, f3, f4, f5, f6, f7, f8, f9, f10⟩ :=
        riskStepG_facts G r e vmap lmap hWF hRW hEC hMCv hMCl heB
      have hinv2 : BuildInv (riskStepG G r e vmap lmap) emap vmap lmap b0 :=
        ⟨f2, f3, f4, mapClosed_mono hMCe f5, mapClosed_mono hMCv f5,
          mapClosed_mono hMCl f5, hMB, by rw [f1]; omega⟩
      obtain ⟨Gp, g1, g2, g3, g4, g5, g6, g7⟩ :=
        ih (riskStepG G r e vmap lmap) emap vmap lmap b0 rest
          (fun r2 hr2 => hres r2 (List.mem_cons_of_mem _ hr2)) hinv2
      refine ⟨Gp, ?_, g2, ?_, nodesLe_trans f5 g4, ?_, ?_, ?_⟩
      · rw [List.cons_append, buildRisk_cons, he]
        exact g1
      · rw [g3, f1]
        simp
        omega
      · intro j
        obtain ⟨t2, ht2⟩ := g5 j
        by_cases hje : j = e
        · subst hje
          refine ⟨("HAS_ASSESSMENT", G.next_id) :: t2, ?_⟩
          rw [ht2, f7, List.append_assoc]
          rfl
        · by_cases hjn : j = G.next_id
          · subst hjn
            refine ⟨((match lookupA vmap r.vuln_id with
                | some v => [("HAS_VULNERABILITY", v)]
                | none => []) ++
              (match lookupA lmap r.lir_id with
                | some l => [("HAS_RISK", l)]
                | none => [])) ++ t2, ?_⟩
            rw [ht2, f9, relWF_relsD_empty hRW (le_refl _)]
            simp
          · exact ⟨t2, by rw [ht2, f8 j hje hjn]⟩
      · intro j hb hj
        have hjn : j ≠ G.next_id := by omega
        have hje : j ≠ e := by omega
        rw [g6 j hb (by rw [f1]; omega), f8 j hje hjn]
      · intro k td h
        rcases g7 k td h with h2 | h2 | h2 | h2
        · exact f10 k td h2
        · exact Or.inr (Or.inl h2)
        · exact Or.inr (Or.inr (Or.inl h2))
        · exact Or.inr (Or.inr (Or.inr h2))

/-! ## Whole-build composition -/

theorem emptyKG_nodesWF : NodesWF emptyKG := by
  intro k hk
  simp [emptyKG, lookupA] at hk

theorem emptyKG_relWF : RelWF emptyKG := by
  intro k hk
  simp [emptyKG, lookupA] at hk

theorem emptyKG_edgesClosed : EdgesClosed emptyKG := by
  intro k l hk
  simp [emptyKG, lookupA] at hk

theorem mapNil_closed (G : KnowledgeGraph) : MapClosed [] G := by
  intro k e he
  simp [lookupA] at he

theorem mapNil_bound (b : Nat) : MapBound [] b := by
  intro k e he
  simp [lookupA] at he

theorem entAt_nil (G : KnowledgeGraph) : EntAt G [] := by
  intro k e he
  simp [lookupA] at he

theorem entAt_mapClosed {G : KnowledgeGraph} {m : List (Int × Nat)}
    (h : EntAt G m) : MapClosed m G := by
  intro k e he
  obtain ⟨t, nm, hn⟩ := h k e he
  simp [hn]

theorem emap_keys (db : Database) (k : Int) :
    (lookupA (buildEntities emptyKG db.entities []).2 k).isSome ↔
      k ∈ db.entities.map EntityRow.entity_id := by
  obtain ⟨_, _, _, _, _, _, c7⟩ :=
    buildEntities_spec db.entities emptyKG [] emptyKG_nodesWF
      (entAt_nil _) (mapNil_bound _)
  rw [c7 k]
  simp [lookupA]

theorem build_unfold (db : Database) :
    build_graph_from_sqlite db =
      match buildAlgorithms (buildEntities emptyKG db.entities []).1
          db.algorithms (buildEntities emptyKG db.entities []).2 with
      | Except.error g => Except.error g
      | Except.ok G2 =>
        match buildProtocols G2 db.protocols
            (buildEntities emptyKG db.entities []).2 with
        | Except.error g => Except.error g
        | Except.ok G3 =>
          match buildCertificates G3 db.certificates
              (buildEntities emptyKG db.entities []).2 with
          | Except.error g => Except.error g
          | Except.ok G4 =>
            buildRisk
              (buildLirs (buildVulns G4 db.vulnerabilities []).1 db.lir []).1
              db.risk_assessments
              (buildEntities emptyKG db.entities []).2
              (buildVulns G4 db.vulnerabilities []).2
              (buildLirs (buildVulns G4 db.vulnerabilities []).1 db.lir []).2 :=
  rfl

theorem build_stages (db : Database)
    (h1 : ∀ a ∈ db.algorithms, a.entity_id ∈ db.entities.map EntityRow.entity_id)
    (h2 : ∀ p ∈ db.protocols, p.entity_id ∈ db.entities.map EntityRow.entity_id)
    (h3 : ∀ c ∈ db.certificates,
      c.entity_id ∈ db.entities.map EntityRow.entity_id) :
    ∃ G6 vmap lmap,
      build_graph_from_sqlite db =
        buildRisk G6 db.risk_assessments
          (buildEntities emptyKG db.entities []).2 vmap lmap ∧
      BuildInv G6 (buildEntities emptyKG db.entities []).2 vmap lmap
        (buildEntities emptyKG db.entities []).1.next_id ∧
      EntAt G6 (buildEntities emptyKG db.entities []).2 ∧
      (∀ k, (lookupA vmap k).isSome ↔
        k ∈ db.vulnerabilities.map VulnRow.vuln_id) ∧
      (∀ k, (lookupA lmap k).isSome ↔ k ∈ db.lir.map LirRow.lir_id) ∧
      (∀ k td, edgeIn G6 k td → td.1 = "IS_ENTITY") := by
  obtain ⟨e1, e2, e3, e4, e5, e6, e7⟩ :=
    buildEntities_spec db.entities emptyKG [] emptyKG_nodesWF
      (entAt_nil _) (mapNil_bound _)
  have hRW1 : RelWF (buildEntities emptyKG db.entities []).1 :=
    relWF_of_rels_eq e3 (by rw [e2]; omega) emptyKG_relWF
  have hEC1 : EdgesClosed (buildEntities emptyKG db.entities []).1 :=
    edgesClosed_of_rels_eq e3 e4 emptyKG_edgesClosed
  have hresA : ∀ r ∈ db.algorithms,
      (lookupA (buildEntities emptyKG db.entities []).2 r.entity_id).isSome := by
    intro r hr
    rw [emap_keys]
    exact h1 r hr
  obtain ⟨G2, okA, a1, a2, a3, a4, a5, a6, a7⟩ :=
    buildAlgorithms_spec db.algorithms _ _ hresA e1 hRW1 hEC1
      (entAt_mapClosed e5)
  have hresP : ∀ r ∈ db.protocols,
      (lookupA (buildEntities emptyKG db.entities []).2 r.entity_id).isSome := by
    intro r hr
    rw [emap_keys]
    exact h2 r hr
  obtain ⟨G3, okP, p1, p2, p3, p4, p5, p6, p7⟩ :=
    buildProtocols_spec db.protocols _ _ hresP a1 a2 a3
      (mapClosed_mono (entAt_mapClosed e5) a5)
  have hresC : ∀ r ∈ db.certificates,
      (lookupA (buildEntities emptyKG db.entities []).2 r.entity_id).isSome := by
    intro r hr
    rw [emap_keys]
    exact h3 r hr
  obtain ⟨G4, okC, q1, q2, q3, q4, q5, q6, q7⟩ :=
    buildCertificates_spec db.certificates _ _ hresC p1 p2 p3
      (mapClosed_mono (mapClosed_mono (entAt_mapClosed e5) a5) p5)
  obtain ⟨v1, v2, v3, v4, v5, v6⟩ :=
    buildVulns_spec db.vulnerabilities G4 [] q1 (mapNil_closed _)
  obtain ⟨l1, l2, l3, l4, l5, l6⟩ :=
    buildLirs_spec db.lir (buildVulns G4 db.vulnerabilities []).1 [] v1
      (mapNil_closed _)
  refine ⟨(buildLirs (buildVulns G4 db.vulnerabilities []).1 db.lir []).1,
    (buildVulns G4 db.vulnerabilities []).2,
    (buildLirs (buildVulns G4 db.vulnerabilities []).1 db.lir []).2,
    ?_, ?_, ?_, ?_, ?_, ?_⟩
  · simp only [build_unfold, okA, okP, okC]
  · refine ⟨l1, ?_, ?_, ?_, ?_, ?_, ?_, ?_⟩
    · exact relWF_of_rels_eq l3 (by rw [l2]; omega)
        (relWF_of_rels_eq v3 (by rw [v2]; omega) q2)
    · exact edgesClosed_of_rels_eq l3 l4
        (edgesClosed_of_rels_eq v3 v4 q3)
    · exact entAt_mapClosed (entAt_mono (entAt_mono (entAt_mono (entAt_mono
        (entAt_mono e5 a5) p5) q5) v4) l4)
    · exact mapClosed_mono v5 l4
    · exact l5
    · exact e6
    · rw [l2, v2, q4, p4, a4]
      omega
  · exact entAt_mono (entAt_mono (entAt_mono (entAt_mono
      (entAt_mono e5 a5) p5) q5) v4) l4
  · intro k
    rw [v6 k]
    simp [lookupA]
  · intro k
    rw [l6 k]
    simp [lookupA]
  · intro k td h
    obtain ⟨l, hl, htd⟩ := h
    rw [l3, v3] at hl
    have h4 : edgeIn G4 k td := ⟨l, hl, htd⟩
    rcases q7 k td h4 with h5 | h5
    · rcases p7 k td h5 with h6 | h6
      · rcases a7 k td h6 with h7 | h7
        · obtain ⟨l0, hl0, _⟩ := h7
          rw [e3] at hl0
          simp [emptyKG, lookupA] at hl0
        · exact h7
      · exact h6
    · exact h5

/-! ## Support lemmas for the claim theorems -/

theorem runAddNodes_fst (calls : List (String × Props)) :
    ∀ G, (runAddNodes G calls).1 = List.range' G.next_id calls.length := by
  induction calls with
  | nil => intro G; simp [runAddNodes]
  | cons c rest ih =>
    intro G
    obtain ⟨l, p⟩ := c
    show (add_node G l p).1 :: (runAddNodes (add_node G l p).2 rest).1 =
      List.range' G.next_id (rest.length + 1)
    rw [List.range'_succ, ih, add_node_fst, add_node_next]

theorem addRelN_relsD (n : Nat) :
    ∀ G s t d j, relsD (addRelN G s t d n) j =
      if j = s then relsD G s ++ List.replicate n (t, d) else relsD G j := by
  induction n with
  | zero =>
    intro G s t d j
    by_cases hj : j = s
    · subst hj
      simp [addRelN]
    · simp [addRelN, hj]
  | succ n ih =>
    intro G s t d j
    show relsD (addRelN (add_relationship G s t d) s t d n) j = _
    rw [ih]
    by_cases hj : j = s
    · subst hj
      rw [if_pos rfl, if_pos rfl, relsD_add_relationship, if_pos rfl]
      simp [List.replicate_succ]
    · rw [if_neg hj, if_neg hj, relsD_add_relationship, if_neg hj]

theorem addRelN_nodes (n : Nat) :
    ∀ G s t d, (addRelN G s t d n).nodes = G.nodes := by
  induction n with
  | zero => intro G s t d; rfl
  | succ n ih =>
    intro G s t d
    show (addRelN (add_relationship G s t d) s t d n).nodes = G.nodes
    rw [ih]
    rfl

theorem addRelN_next (n : Nat) :
    ∀ G s t d, (addRelN G s t d n).next_id = G.next_id := by
  induction n with
  | zero => intro G s t d; rfl
  | succ n ih =>
    intro G s t d
    show (addRelN (add_relationship G s t d) s t d n).next_id = G.next_id
    rw [ih]
    rfl

theorem propGet_eq_some {p : Props} {k : String} {v : Value}
    (hv : v ≠ Value.vnone) : propGet p k = v ↔ propGetQ p k = some v := by
  unfold propGet propGetQ
  cases h : lookupA p k with
  | none =>
    constructor
    · intro h2
      exact absurd h2.symm hv
    · intro h2
      cases h2
  | some w => simp

theorem relsD_edgeIn {G : KnowledgeGraph} {k : Nat} {td : String × Nat}
    (h : td ∈ relsD G k) : edgeIn G k td := by
  unfold relsD at h
  cases hl : lookupA G.relationships k with
  | none =>
    rw [hl] at h
    simp at h
  | some l =>
    rw [hl] at h
    exact ⟨l, hl, h⟩

theorem mem_find_node_by_prop (G : KnowledgeGraph) (key : String)
    (value : Value) (i : Nat) :
    i ∈ find_node_by_prop G key value ↔
      ∃ nd, (i, nd) ∈ G.nodes ∧ propGet nd.props key = value := by
  unfold find_node_by_prop
  rw [List.mem_map]
  constructor
  · rintro ⟨⟨i2, nd⟩, hmem, hfst⟩
    obtain ⟨hm, hp⟩ := List.mem_filter.mp hmem
    cases hfst
    exact ⟨nd, hm, by simpa using hp⟩
  · rintro ⟨nd, hm, hp⟩
    exact ⟨(i, nd), List.mem_filter.mpr ⟨hm, by simpa using hp⟩, rfl⟩

/-! ## Claim theorems -/

/-- Claim C5 (confirmed): on a freshly constructed Graph Store, a
sequence of `add_node` calls — with any mix of labels, since the
counter is shared, starts at 1 and is never reset — returns the ids
`1, 2, 3, …`: the `i`-th call returns `1 + i` where `i` counts the
prior calls, and all returned ids are distinct. -/
theorem C5_add_node_ids (calls : List (String × Props)) :
    (runAddNodes emptyKG calls).1 = List.range' 1 calls.length ∧
    (∀ i, (hi : i < calls.length) →
      (runAddNodes emptyKG calls).1[i]? = some (1 + i)) ∧
    (runAddNodes emptyKG calls).1.Nodup := by
  have h := runAddNodes_fst calls emptyKG
  refine ⟨h, ?_, ?_⟩
  · intro i hi
    rw [h]
    show (List.range' 1 calls.length)[i]? = some (1 + i)
    rw [List.getElem?_range' 1 1 hi]
    simp
  · rw [h]
    exact List.nodup_range' 1 calls.length

/-- Witness for C5 at a concrete three-call sequence. -/
theorem C5_add_node_ids_witness :
    (runAddNodes emptyKG [("Entity", []), ("Algorithm", []), ("LIR", [])]).1[1]? =
      some (1 + 1) :=
  (C5_add_node_ids [("Entity", []), ("Algorithm", []), ("LIR", [])]).2.1 1
    (by decide)

/-- Claim C6 (corrected): calling `add_relationship s t d` `N` times
appends exactly `N` copies of `(t, d)` at the end of `s`'s edge
sequence, in insertion order and without deduplication, so the stored
sequence holds its prior count of `(t, d)` plus `N` occurrences (not
"exactly N" when the starting store already held such edges); no other
source's sequence, no node, and the id counter change, and the call
never fails (it is total and checks neither `s` nor `d`). -/
theorem C6_fanout (G : KnowledgeGraph) (s : Nat) (t : String) (d : Nat)
    (n : Nat) :
    relsD (addRelN G s t d n) s = relsD G s ++ List.replicate n (t, d) ∧
    (relsD (addRelN G s t d n) s).count (t, d) =
      (relsD G s).count (t, d) + n ∧
    (∀ j, relsD (addRelN G s t d n) j =
      if j = s then relsD G s ++ List.replicate n (t, d) else relsD G j) ∧
    (addRelN G s t d n).nodes = G.nodes ∧
    (addRelN G s t d n).next_id = G.next_id := by
  have h := addRelN_relsD n G s t d
  have hs := h s
  rw [if_pos rfl] at hs
  refine ⟨hs, ?_, h, addRelN_nodes n G s t d, addRelN_next n G s t d⟩
  rw [hs, List.count_append]
  simp

/-- Counterexample for C6 as stated: from a store that already holds
one `("T", 2)` edge out of `1`, a single further call leaves two
occurrences, not "exactly one". -/
theorem C6_counterexample :
    (relsD KGC6 1).count ("T", 2) = 1 ∧
    (relsD (addRelN KGC6 1 "T" 2 1) 1).count ("T", 2) = 2 ∧
    ¬((relsD (addRelN KGC6 1 "T" 2 1) 1).count ("T", 2) = 1) := by
  refine ⟨by decide, by decide, by decide⟩

/-- Claim C2 (corrected): for every value `v` other than `None`,
`find_node_by_prop k v` returns exactly the ids of nodes whose
property map binds `k` to `v` — a node without `k` is never returned
and no lookup fails.  (For `v = None` the claim fails: `dict.get`
defaults a missing key to `None`, so nodes lacking `k` are returned.) -/
theorem C2_find_exact (G : KnowledgeGraph) (k : String) (v : Value)
    (hv : v ≠ Value.vnone) (i : Nat) :
    i ∈ find_node_by_prop G k v ↔
      ∃ nd, (i, nd) ∈ G.nodes ∧ propGetQ nd.props k = some v := by
  rw [mem_find_node_by_prop]
  constructor
  · rintro ⟨nd, hm, hp⟩
    exact ⟨nd, hm, (propGet_eq_some hv).mp hp⟩
  · rintro ⟨nd, hm, hp⟩
    exact ⟨nd, hm, (propGet_eq_some hv).mpr hp⟩

/-- Witness for C2 at a concrete store and value. -/
theorem C2_find_exact_witness :
    (Value.vstr "x" ≠ Value.vnone) ∧
    (1 ∈ find_node_by_prop KGC2w "p" (Value.vstr "x") ↔
      ∃ nd, (1, nd) ∈ KGC2w.nodes ∧
        propGetQ nd.props "p" = some (Value.vstr "x")) :=
  ⟨by decide, C2_find_exact KGC2w "p" (Value.vstr "x") (by decide) 1⟩

/-- Counterexample for C2 as stated: the node of `KGC2` has no `"k"`
property at all, yet `find_node_by_prop "k" None` returns it, because
the missing-key default `None` compares equal to the probe. -/
theorem C2_counterexample :
    find_node_by_prop KGC2 "k" Value.vnone = [1] ∧
    lookupA KGC2.nodes 1 = some ⟨"X", []⟩ ∧
    propGetQ [] "k" = none := by
  refine ⟨by decide, by decide, by decide⟩

/-- Claim C9 (confirmed): building from seven empty tables yields a
store with zero nodes on which every query returns `[]`; and in
general a query whose name matches zero nodes returns `[]` without
failing. -/
theorem C9_empty_and_miss :
    build_graph_from_sqlite dbEmpty = Except.ok emptyKG ∧
    emptyKG.nodes = [] ∧
    (∀ name, get_vulnerabilities emptyKG name = some ([], emptyKG)) ∧
    (∀ name, get_risk_assessments emptyKG name = some ([], emptyKG)) ∧
    (∀ name, get_protocols_using_algorithm emptyKG name = some ([], emptyKG)) ∧
    (∀ G name, find_node_by_prop G "entity_name" (Value.vstr name) = [] →
      get_vulnerabilities G name = some ([], G)) ∧
    (∀ G name, find_node_by_prop G "entity_name" (Value.vstr name) = [] →
      get_risk_assessments G name = some ([], G)) ∧
    (∀ G name, find_node_by_prop G "algo_name" (Value.vstr name) = [] →
      get_protocols_using_algorithm G name = some ([], G)) := by
  refine ⟨rfl, rfl, fun name => rfl, fun name => rfl, fun name => rfl,
    ?_, ?_, ?_⟩
  · intro G name h
    unfold get_vulnerabilities
    rw [h]
    rfl
  · intro G name h
    unfold get_risk_assessments
    rw [h]
    rfl
  · intro G name h
    unfold get_protocols_using_algorithm
    rw [h]
    rfl

/-- Witness for C9's query-miss clause at a store whose only node does
not carry the probed name. -/
theorem C9_empty_and_miss_witness :
    get_vulnerabilities KGC2 "zzz" = some ([], KGC2) :=
  C9_empty_and_miss.2.2.2.2.2.1 KGC2 "zzz" (by decide)

/-! ## Edge-type support lemmas (no invariants needed) -/

theorem edgeIn_rels_eq {G G2 : KnowledgeGraph}
    (h : G2.relationships = G.relationships) (k : Nat) (td : String × Nat)
    (h2 : edgeIn G2 k td) : edgeIn G k td := by
  obtain ⟨l, hl, htd⟩ := h2
  rw [h] at hl
  exact ⟨l, hl, htd⟩

theorem buildEntities_rels (rows : List EntityRow) :
    ∀ G emap, (buildEntities G rows emap).1.relationships =
      G.relationships := by
  induction rows with
  | nil => intro G emap; rfl
  | cons r rest ih =>
    intro G emap
    rw [buildEntities_cons, ih]
    rfl

theorem buildVulns_rels (rows : List VulnRow) :
    ∀ G vmap, (buildVulns G rows vmap).1.relationships =
      G.relationships := by
  induction rows with
  | nil => intro G vmap; rfl
  | cons r rest ih =>
    intro G vmap
    rw [buildVulns_cons, ih]
    rfl

theorem buildLirs_rels (rows : List LirRow) :
    ∀ G lmap, (buildLirs G rows lmap).1.relationships =
      G.relationships := by
  induction rows with
  | nil => intro G lmap; rfl
  | cons r rest ih =>
    intro G lmap
    rw [buildLirs_cons, ih]
    rfl

theorem buildAlgorithms_ok_edges (rows : List AlgorithmRow) :
    ∀ G emap G2, buildAlgorithms G rows emap = Except.ok G2 →
      ∀ k td, edgeIn G2 k td → edgeIn G k td ∨ td.1 = "IS_ENTITY" := by
  induction rows with
  | nil =>
    intro G emap G2 h k td h2
    injection h with h3
    subst h3
    exact Or.inl h2
  | cons r rest ih =>
    intro G emap G2 h k td h2
    rw [buildAlgorithms_cons] at h
    cases he : lookupA emap r.entity_id with
    | none =>
      rw [he] at h
      exact absurd h (by simp)
    | some e =>
      rw [he] at h
      rcases ih _ emap G2 h k td h2 with h3 | h3
      · rcases add_rel_edgeIn k td h3 with h4 | h4
        · rw [edgeIn_add_node] at h4
          exact Or.inl h4
        · rw [h4]
          exact Or.inr rfl
      · exact Or.inr h3

theorem buildProtocols_ok_edges (rows : List ProtocolRow) :
    ∀ G emap G2, buildProtocols G rows emap = Except.ok G2 →
      ∀ k td, edgeIn G2 k td → edgeIn G k td ∨ td.1 = "IS_ENTITY" := by
  induction rows with
  | nil =>
    intro G emap G2 h k td h2
    injection h with h3
    subst h3
    exact Or.inl h2
  | cons r rest ih =>
    intro G emap G2 h k td h2
    rw [buildProtocols_cons] at h
    cases he : lookupA emap r.entity_id with
    | none =>
      rw [he] at h
      exact absurd h (by simp)
    | some e =>
      rw [he] at h
      rcases ih _ emap G2 h k td h2 with h3 | h3
      · rcases add_rel_edgeIn k td h3 with h4 | h4
        · rw [edgeIn_add_node] at h4
          exact Or.inl h4
        · rw [h4]
          exact Or.inr rfl
      · exact Or.inr h3

theorem buildCertificates_ok_edges (rows : List CertificateRow) :
    ∀ G emap G2, buildCertificates G rows emap = Except.ok G2 →
      ∀ k td, edgeIn G2 k td → edgeIn G k td ∨ td.1 = "IS_ENTITY" := by
  induction rows with
  | nil =>
    intro G emap G2 h k td h2
    injection h with h3
    subst h3
    exact Or.inl h2
  | cons r rest ih =>
    intro G emap G2 h k td h2
    rw [buildCertificates_cons] at h
    cases he : lookupA emap r.entity_id with
    | none =>
      rw [he] at h
      exact absurd h (by simp)
    | some e =>
      rw [he] at h
      rcases ih _ emap G2 h k td h2 with h3 | h3
      · rcases add_rel_edgeIn k td h3 with h4 | h4
        · rw [edgeIn_add_node] at h4
          exact Or.inl h4
        · rw [h4]
          exact Or.inr rfl
      · exact Or.inr h3

theorem riskStepG_edgeIn (G : KnowledgeGraph) (r : RiskRow) (e : Nat)
    (vmap lmap : List (Int × Nat)) (k : Nat) (td : String × Nat)
    (h : edgeIn (riskStepG G r e vmap lmap) k td) :
    edgeIn G k td ∨ td.1 = "HAS_ASSESSMENT" ∨
      td.1 = "HAS_VULNERABILITY" ∨ td.1 = "HAS_RISK" := by
  rw [riskStepG_eq] at h
  rcases optAdd_edgeIn k td h with h2 | h2
  · rcases optAdd_edgeIn k td h2 with h3 | h3
    · rcases add_rel_edgeIn k td h3 with h4 | h4
      · rw [edgeIn_add_node] at h4
        exact Or.inl h4
      · rw [h4]
        exact Or.inr (Or.inl rfl)
    · exact Or.inr (Or.inr (Or.inl h3))
  · exact Or.inr (Or.inr (Or.inr h2))

theorem buildRisk_ok_edges (rows : List RiskRow) :
    ∀ G emap vmap lmap G2, buildRisk G rows emap vmap lmap = Except.ok G2 →
      ∀ k td, edgeIn G2 k td → edgeIn G k td ∨ td.1 = "HAS_ASSESSMENT" ∨
        td.1 = "HAS_VULNERABILITY" ∨ td.1 = "HAS_RISK" := by
  induction rows with
  | nil =>
    intro G emap vmap lmap G2 h k td h2
    injection h with h3
    subst h3
    exact Or.inl h2
  | cons r rest ih =>
    intro G emap vmap lmap G2 h k td h2
    rw [buildRisk_cons] at h
    cases he : lookupA emap r.entity_id with
    | none =>
      rw [he] at h
      exact absurd h (by simp)
    | some e =>
      rw [he] at h
      rcases ih _ emap vmap lmap G2 h k td h2 with h3 | h3 | h3 | h3
      · exact riskStepG_edgeIn G r e vmap lmap k td h3
      · exact Or.inr (Or.inl h3)
      · exact Or.inr (Or.inr (Or.inl h3))
      · exact Or.inr (Or.inr (Or.inr h3))

/-- Claim C1 (corrected): whenever a Query Layer operation returns, the
nodes map and the id counter are unchanged, and every existing entry of
the relationships map is unchanged — but the relationships key set may
grow: reading a missing source through `defaultdict(list)` inserts the
key with an empty list, so the queries are not observationally free of
writes on the store's key set (query results are unaffected, since a
missing key and an empty list read identically). -/
theorem C1_query_frame (G : KnowledgeGraph) (name : String)
    (res : List Props) (G2 : KnowledgeGraph)
    (h : get_vulnerabilities G name = some (res, G2) ∨
      get_risk_assessments G name = some (res, G2) ∨
      get_protocols_using_algorithm G name = some (res, G2)) :
    QueryFrame G G2 := by
  rcases h with h | h | h
  · exact (get_vulnerabilities_some G name res G2 h).1
  · exact (get_risk_assessments_some G name res G2 h).1
  · unfold get_protocols_using_algorithm at h
    exact protosOuter_frame _ _ _ _ _ h

/-- Witness for C1's amended frame property on a built graph. -/
theorem C1_query_frame_witness : QueryFrame KGC1 KGC1x :=
  C1_query_frame KGC1 "E1" [] KGC1x (Or.inl rfl)

/-- Counterexample for C1 as stated: on the graph the Builder produces
from `dbC1` (one entity, no assessments), `get_vulnerabilities` leaves
the nodes and counter alone but inserts the entity's id into the
relationships map, changing its key set. -/
theorem C1_counterexample :
    build_graph_from_sqlite dbC1 = Except.ok KGC1 ∧
    get_vulnerabilities KGC1 "E1" = some ([], KGC1x) ∧
    KGC1x.relationships ≠ KGC1.relationships :=
  ⟨rfl, rfl, by decide⟩

/-- Claim C8 (confirmed): no Builder step creates a `USED_IN` edge, so
on every graph `build_graph_from_sqlite` returns,
`get_protocols_using_algorithm` returns the empty list for every
algorithm name. -/
theorem C8_no_used_in (db : Database) (G : KnowledgeGraph)
    (h : build_graph_from_sqlite db = Except.ok G) :
    (∀ k td, edgeIn G k td → td.1 ≠ "USED_IN") ∧
    (∀ name, ∃ G2, get_protocols_using_algorithm G name = some ([], G2)) := by
  rw [build_unfold] at h
  have hedge : ∀ k td, edgeIn G k td → td.1 ≠ "USED_IN" := by
    cases hA : buildAlgorithms (buildEntities emptyKG db.entities []).1
        db.algorithms (buildEntities emptyKG db.entities []).2 with
    | error g =>
      rw [hA] at h
      exact absurd h (by simp)
    | ok G2 =>
      simp only [hA] at h
      cases hP : buildProtocols G2 db.protocols
          (buildEntities emptyKG db.entities []).2 with
      | error g =>
        rw [hP] at h
        exact absurd h (by simp)
      | ok G3 =>
        simp only [hP] at h
        cases hC : buildCertificates G3 db.certificates
            (buildEntities emptyKG db.entities []).2 with
        | error g =>
          rw [hC] at h
          exact absurd h (by simp)
        | ok G4 =>
          simp only [hC] at h
          intro k td h2
          have hrels : (buildLirs (buildVulns G4 db.vulnerabilities []).1
              db.lir []).1.relationships = G4.relationships := by
            rw [buildLirs_rels, buildVulns_rels]
          have hent : (buildEntities emptyKG db.entities []).1.relationships =
              emptyKG.relationships := buildEntities_rels db.entities _ _
          rcases buildRisk_ok_edges db.risk_assessments _ _ _ _ _ h k td h2
            with h3 | h3 | h3 | h3
          · have h4 := edgeIn_rels_eq hrels k td h3
            rcases buildCertificates_ok_edges db.certificates _ _ _ hC
                k td h4 with h5 | h5
            · rcases buildProtocols_ok_edges db.protocols _ _ _ hP
                  k td h5 with h6 | h6
              · rcases buildAlgorithms_ok_edges db.algorithms _ _ _ hA
                    k td h6 with h7 | h7
                · obtain ⟨l, hl, _⟩ := edgeIn_rels_eq hent k td h7
                  simp [emptyKG, lookupA] at hl
                · rw [h7]
                  decide
              · rw [h6]
                decide
            · rw [h5]
              decide
          · rw [h3]
            decide
          · rw [h3]
            decide
          · rw [h3]
            decide
  refine ⟨hedge, ?_⟩
  intro name
  unfold get_protocols_using_algorithm
  apply protosOuter_noUsed
  intro k td htd
  exact hedge k td (relsD_edgeIn htd)

/-- Witness for C8 on the graph built from `dbC8`. -/
theorem C8_no_used_in_witness :
    ∃ G2, get_protocols_using_algorithm KGC8 "RSA" = some ([], G2) :=
  (C8_no_used_in dbC8 KGC8 rfl).2 "RSA"

/-- Claim C3 (corrected): an algorithm, certificate or protocol row
whose `entity_id` does not resolve makes the build fail with a lookup
error and no populated graph; but resolving those foreign keys alone
does not guarantee success — risk-assessment rows' `entity_id`s are
looked up unguarded too, so the completion half needs them to resolve
as well. -/
theorem C3_build_integrity (db : Database) :
    (((∃ a ∈ db.algorithms,
        a.entity_id ∉ db.entities.map EntityRow.entity_id) ∨
      (∃ p ∈ db.protocols,
        p.entity_id ∉ db.entities.map EntityRow.entity_id) ∨
      (∃ c ∈ db.certificates,
        c.entity_id ∉ db.entities.map EntityRow.entity_id)) →
      ∃ g, build_graph_from_sqlite db = Except.error g) ∧
    ((∀ a ∈ db.algorithms, a.entity_id ∈ db.entities.map EntityRow.entity_id) →
     (∀ p ∈ db.protocols, p.entity_id ∈ db.entities.map EntityRow.entity_id) →
     (∀ c ∈ db.certificates,
        c.entity_id ∈ db.entities.map EntityRow.entity_id) →
     (∀ q ∈ db.risk_assessments,
        q.entity_id ∈ db.entities.map EntityRow.entity_id) →
      ∃ G, build_graph_from_sqlite db = Except.ok G) := by
  have hnone : ∀ k : Int, k ∉ db.entities.map EntityRow.entity_id →
      lookupA (buildEntities emptyKG db.entities []).2 k = none := by
    intro k hk
    rw [← Option.not_isSome_iff_eq_none]
    intro hs
    exact hk ((emap_keys db k).mp hs)
  constructor
  · intro h
    rw [build_unfold]
    rcases h with hA | hP | hC
    · obtain ⟨a, ha, hna⟩ := hA
      obtain ⟨g, hg⟩ := buildAlgorithms_err db.algorithms
        (buildEntities emptyKG db.entities []).1
        (buildEntities emptyKG db.entities []).2 ⟨a, ha, hnone _ hna⟩
      exact ⟨g, by simp only [hg]⟩
    · cases hA2 : buildAlgorithms (buildEntities emptyKG db.entities []).1
          db.algorithms (buildEntities emptyKG db.entities []).2 with
      | error g => exact ⟨g, by simp only [hA2]⟩
      | ok G2 =>
        obtain ⟨p, hp, hnp⟩ := hP
        obtain ⟨g, hg⟩ := buildProtocols_err db.protocols G2 _
          ⟨p, hp, hnone _ hnp⟩
        exact ⟨g, by simp only [hA2, hg]⟩
    · cases hA2 : buildAlgorithms (buildEntities emptyKG db.entities []).1
          db.algorithms (buildEntities emptyKG db.entities []).2 with
      | error g => exact ⟨g, by simp only [hA2]⟩
      | ok G2 =>
        cases hP2 : buildProtocols G2 db.protocols
            (buildEntities emptyKG db.entities []).2 with
        | error g => exact ⟨g, by simp only [hA2, hP2]⟩
        | ok G3 =>
          obtain ⟨c, hc, hnc⟩ := hC
          obtain ⟨g, hg⟩ := buildCertificates_err db.certificates G3 _
            ⟨c, hc, hnone _ hnc⟩
          exact ⟨g, by simp only [hA2, hP2, hg]⟩
  · intro h1 h2 h3 h4
    obtain ⟨G6, vmap, lmap, heq, hinv, _, _, _, _⟩ := build_stages db h1 h2 h3
    have hres : ∀ q ∈ db.risk_assessments,
        (lookupA (buildEntities emptyKG db.entities []).2 q.entity_id).isSome := by
      intro q hq
      rw [emap_keys]
      exact h4 q hq
    obtain ⟨Gp, geq, _⟩ := buildRisk_steps db.risk_assessments G6 _ vmap lmap
      _ [] hres hinv
    rw [List.append_nil] at geq
    exact ⟨Gp, by rw [heq, geq]; rfl⟩

/-- Counterexample for C3 as stated: `dbC3` has no algorithm, protocol
or certificate rows (its entity foreign keys resolve vacuously), yet
construction fails on the risk-assessment row's dangling `entity_id`. -/
theorem C3_counterexample :
    dbC3.algorithms = [] ∧ dbC3.protocols = [] ∧ dbC3.certificates = [] ∧
    build_graph_from_sqlite dbC3 =
      Except.error
        ⟨[(1, ⟨"RiskAssessment", raProps ⟨100, 1, 10, 5, "x"⟩⟩)], [], 2⟩ :=
  ⟨rfl, rfl, rfl, rfl⟩

/-- Witness for C3's amended claim: a dangling algorithm key aborts the
build, and a snapshot whose entity keys all resolve builds a graph. -/
theorem C3_build_integrity_witness :
    (∃ g, build_graph_from_sqlite dbC3bad = Except.error g) ∧
    (∃ G, build_graph_from_sqlite dbC3good = Except.ok G) :=
  ⟨(C3_build_integrity dbC3bad).1
      (Or.inl ⟨⟨7, 1, "A", "f", "c"⟩, by decide, by decide⟩),
   (C3_build_integrity dbC3good).2 (by decide) (by decide) (by decide)
      (by decide)⟩

/-- Claim C10 (confirmed): a risk-assessment row whose `entity_id`
does not resolve is fatal exactly like an unresolved entity key of an
algorithm/certificate/protocol row — the `entity_map[eid]` access
raises after the `RiskAssessment` node is allocated, so the store at
the failure point already holds that node and no graph is returned. -/
theorem C10_risk_entity_fatal (db : Database) (pre post : List RiskRow)
    (r : RiskRow)
    (h1 : ∀ a ∈ db.algorithms, a.entity_id ∈ db.entities.map EntityRow.entity_id)
    (h2 : ∀ p ∈ db.protocols, p.entity_id ∈ db.entities.map EntityRow.entity_id)
    (h3 : ∀ c ∈ db.certificates,
      c.entity_id ∈ db.entities.map EntityRow.entity_id)
    (hsplit : db.risk_assessments = pre ++ r :: post)
    (hpre : ∀ q ∈ pre, q.entity_id ∈ db.entities.map EntityRow.entity_id)
    (hr : r.entity_id ∉ db.entities.map EntityRow.entity_id) :
    ∃ g, build_graph_from_sqlite db = Except.error g ∧
      ∃ i, lookupA g.nodes i = some ⟨"RiskAssessment", raProps r⟩ := by
  obtain ⟨G6, vmap, lmap, heq, hinv, _, _, _, _⟩ := build_stages db h1 h2 h3
  have hres : ∀ q ∈ pre,
      (lookupA (buildEntities emptyKG db.entities []).2 q.entity_id).isSome := by
    intro q hq
    rw [emap_keys]
    exact hpre q hq
  obtain ⟨Gp, geq, _⟩ := buildRisk_steps pre G6 _ vmap lmap _ (r :: post)
    hres hinv
  have hrn : lookupA (buildEntities emptyKG db.entities []).2 r.entity_id =
      none := by
    rw [← Option.not_isSome_iff_eq_none]
    intro hs
    exact hr ((emap_keys db r.entity_id).mp hs)
  refine ⟨(add_node Gp "RiskAssessment" (raProps r)).2, ?_, Gp.next_id,
    add_node_lookup_self Gp _ _⟩
  rw [heq, hsplit, geq, buildRisk_cons]
  simp only [hrn]

/-- Witness for C10 at `dbC10` (second risk row's entity id 5 is
absent). -/
theorem C10_risk_entity_fatal_witness :
    ∃ g, build_graph_from_sqlite dbC10 = Except.error g ∧
      ∃ i, lookupA g.nodes i =
        some ⟨"RiskAssessment", raProps ⟨101, 5, 0, 0, "s"⟩⟩ :=
  C10_risk_entity_fatal dbC10 [⟨100, 1, 0, 0, "s"⟩] [] ⟨101, 5, 0, 0, "s"⟩
    (by decide) (by decide) (by decide) (by decide) (by decide) (by decide)

/-- Claim C7 (confirmed): `get_vulnerabilities` computes exactly the
spec's two-hop traversal (`Entity → HAS_ASSESSMENT → RiskAssessment →
HAS_VULNERABILITY → Vulnerability`), flat, in entity-match order then
assessment insertion order, without deduplication, and
`get_risk_assessments` the one-hop version; on the §8 scenario (entity
`E`, assessments `A1 → V1` and `A2 → V2` with no LIR) they return
`[V1.props, V2.props]` and `[A1.props, A2.props]`; and two entities
sharing a name have their results aggregated. -/
theorem C7_two_hop :
    (∀ G name res G2, get_vulnerabilities G name = some (res, G2) →
      res = vulnsSpec G name) ∧
    (∀ G name res G2, get_risk_assessments G name = some (res, G2) →
      res = rasSpec G name) ∧
    (build_graph_from_sqlite dbC7 = Except.ok KGC7 ∧
      get_vulnerabilities KGC7 "E" =
        some ([vulnProps ⟨10, "shor"⟩, vulnProps ⟨11, "grover"⟩], KGC7x) ∧
      get_risk_assessments KGC7 "E" =
        some ([raProps ⟨100, 1, 10, 5, "s1"⟩,
               raProps ⟨101, 1, 11, 99, "s2"⟩], KGC7y)) ∧
    (build_graph_from_sqlite dbDup = Except.ok KGDup ∧
      get_vulnerabilities KGDup "D" =
        some ([vulnProps ⟨10, "a"⟩, vulnProps ⟨11, "b"⟩], KGDupx)) :=
  ⟨fun G name res G2 h => (get_vulnerabilities_some G name res G2 h).2,
   fun G name res G2 h => (get_risk_assessments_some G name res G2 h).2,
   ⟨rfl, by decide, by decide⟩, ⟨rfl, by decide⟩⟩

/-- Witness for C7's refinement clauses on the graph built from
`dbC7`. -/
theorem C7_two_hop_witness :
    [vulnProps ⟨10, "shor"⟩, vulnProps ⟨11, "grover"⟩] =
      vulnsSpec KGC7 "E" ∧
    [raProps ⟨100, 1, 10, 5, "s1"⟩, raProps ⟨101, 1, 11, 99, "s2"⟩] =
      rasSpec KGC7 "E" :=
  ⟨C7_two_hop.1 KGC7 "E" _ KGC7x (by decide),
   C7_two_hop.2.1 KGC7 "E" _ KGC7y (by decide)⟩

/-- Claim C4 (confirmed): a risk-assessment row whose `vuln_id`
(respectively `lir_id`) does not resolve still yields its
`RiskAssessment` node and incoming `HAS_ASSESSMENT` edge from the
owning `Entity` node, only the `HAS_VULNERABILITY` (respectively
`HAS_RISK`) edge is omitted, the build raises no error, and
`get_risk_assessments` on the owning entity's name still returns the
assessment's properties. -/
theorem C4_dangling_tolerated (db : Database) (pre post : List RiskRow)
    (r : RiskRow)
    (h1 : ∀ a ∈ db.algorithms,
      a.entity_id ∈ db.entities.map EntityRow.entity_id)
    (h2 : ∀ p ∈ db.protocols,
      p.entity_id ∈ db.entities.map EntityRow.entity_id)
    (h3 : ∀ c ∈ db.certificates,
      c.entity_id ∈ db.entities.map EntityRow.entity_id)
    (h4 : ∀ q ∈ db.risk_assessments,
      q.entity_id ∈ db.entities.map EntityRow.entity_id)
    (hsplit : db.risk_assessments = pre ++ r :: post) :
    ∃ (G : KnowledgeGraph) (raNid e : Nat) (t ename : String),
      build_graph_from_sqlite db = Except.ok G ∧
      lookupA G.nodes raNid = some ⟨"RiskAssessment", raProps r⟩ ∧
      lookupA G.nodes e = some ⟨"Entity", entProps ⟨r.entity_id, t, ename⟩⟩ ∧
      ("HAS_ASSESSMENT", raNid) ∈ relsD G e ∧
      (r.vuln_id ∉ db.vulnerabilities.map VulnRow.vuln_id →
        ∀ td ∈ relsD G raNid, td.1 ≠ "HAS_VULNERABILITY") ∧
      (r.lir_id ∉ db.lir.map LirRow.lir_id →
        ∀ td ∈ relsD G raNid, td.1 ≠ "HAS_RISK") ∧
      ∃ res G2, get_risk_assessments G ename = some (res, G2) ∧
        raProps r ∈ res := by
  obtain ⟨G6, vmap, lmap, heq, hinv, hEA, hvk, hlk, _⟩ :=
    build_stages db h1 h2 h3
  have hresAll : ∀ q ∈ db.risk_assessments,
      (lookupA (buildEntities emptyKG db.entities []).2 q.entity_id).isSome := by
    intro q hq
    rw [emap_keys]
    exact h4 q hq
  have hrmem : r ∈ db.risk_assessments := by
    rw [hsplit]
    exact List.mem_append_right _ (List.mem_cons_self _ _)
  have hpre : ∀ q ∈ pre,
      (lookupA (buildEntities emptyKG db.entities []).2 q.entity_id).isSome := by
    intro q hq
    refine hresAll q ?_
    rw [hsplit]
    exact List.mem_append_left _ hq
  have hpost : ∀ q ∈ post,
      (lookupA (buildEntities emptyKG db.entities []).2 q.entity_id).isSome := by
    intro q hq
    refine hresAll q ?_
    rw [hsplit]
    exact List.mem_append_right _ (List.mem_cons_of_mem _ hq)
  obtain ⟨Gp, geq, hinvP, hnidP, hleP, happP, hfrP, _⟩ :=
    buildRisk_steps pre G6 _ vmap lmap _ (r :: post) hpre hinv
  have hsr := hresAll r hrmem
  cases he : lookupA (buildEntities emptyKG db.entities []).2 r.entity_id with
  | none =>
    rw [he] at hsr
    simp at hsr
  | some e =>
    obtain ⟨pWF, pRW, pEC, pMCe, pMCv, pMCl, pMB, pb0⟩ := hinvP
    have heB : e < Gp.next_id := by
      have := pMB _ e he
      omega
    obtain ⟨f1, f2, f3, f4, f5, f6, f7, f8, f9, f10⟩ :=
      riskStepG_facts Gp r e vmap lmap pWF pRW pEC pMCv pMCl heB
    have hinvS : BuildInv (riskStepG Gp r e vmap lmap)
        (buildEntities emptyKG db.entities []).2 vmap lmap
        (buildEntities emptyKG db.entities []).1.next_id :=
      ⟨f2, f3, f4, mapClosed_mono pMCe f5, mapClosed_mono pMCv f5,
        mapClosed_mono pMCl f5, pMB, by rw [f1]; omega⟩
    obtain ⟨Gf, geq2, hinvF, hnidF, hleF, happF, hfrF, _⟩ :=
      buildRisk_steps post (riskStepG Gp r e vmap lmap) _ vmap lmap _ []
        hpost hinvS
    rw [List.append_nil] at geq2
    have hball : build_graph_from_sqlite db = Except.ok Gf := by
      rw [heq, hsplit, geq, buildRisk_cons]
      simp only [he]
      rw [geq2]
      rfl
    have hraGf : lookupA Gf.nodes Gp.next_id =
        some ⟨"RiskAssessment", raProps r⟩ := hleF _ _ f6
    obtain ⟨t, nm, hent6⟩ := hEA _ e he
    have hentGf : lookupA Gf.nodes e =
        some ⟨"Entity", entProps ⟨r.entity_id, t, nm⟩⟩ :=
      hleF _ _ (f5 _ _ (hleP _ _ hent6))
    have hHA_Gs : ("HAS_ASSESSMENT", Gp.next_id) ∈
        relsD (riskStepG Gp r e vmap lmap) e := by
      rw [f7]
      simp
    obtain ⟨tail, htail⟩ := happF e
    have hHA_Gf : ("HAS_ASSESSMENT", Gp.next_id) ∈ relsD Gf e := by
      rw [htail]
      exact List.mem_append_left _ hHA_Gs
    have hraRels : relsD Gf Gp.next_id =
        (match lookupA vmap r.vuln_id with
         | some v => [("HAS_VULNERABILITY", v)]
         | none => []) ++
        (match lookupA lmap r.lir_id with
         | some l => [("HAS_RISK", l)]
         | none => []) := by
      rw [← f9]
      apply hfrF
      · exact pb0
      · rw [f1]
        omega
    obtain ⟨fWF, fRW, fEC, _⟩ := hinvF
    obtain ⟨G2, hq⟩ := get_risk_assessments_total Gf nm fEC
    have hin : raProps r ∈ rasSpec Gf nm := by
      unfold rasSpec
      rw [List.mem_flatMap]
      refine ⟨e, ?_, ?_⟩
      · rw [mem_find_node_by_prop]
        refine ⟨⟨"Entity", entProps ⟨r.entity_id, t, nm⟩⟩,
          lookupA_mem _ _ _ hentGf, ?_⟩
        simp [entProps, propGet, lookupA]
      · rw [List.mem_map]
        refine ⟨("HAS_ASSESSMENT", Gp.next_id),
          List.mem_filter.mpr ⟨hHA_Gf, by simp⟩, ?_⟩
        simp [propsD, hraGf]
    refine ⟨Gf, Gp.next_id, e, t, nm, hball, hraGf, hentGf, hHA_Gf,
      ?_, ?_, rasSpec Gf nm, G2, hq, hin⟩
    · intro hnv td htd
      have hvn : lookupA vmap r.vuln_id = none := by
        rw [← Option.not_isSome_iff_eq_none]
        intro hs
        exact hnv ((hvk _).mp hs)
      rw [hraRels, hvn] at htd
      cases hl2 : lookupA lmap r.lir_id with
      | none =>
        rw [hl2] at htd
        simp at htd
      | some l =>
        rw [hl2] at htd
        simp at htd
        rw [htd]
        simp
    · intro hnl td htd
      have hln : lookupA lmap r.lir_id = none := by
        rw [← Option.not_isSome_iff_eq_none]
        intro hs
        exact hnl ((hlk _).mp hs)
      rw [hraRels, hln] at htd
      cases hv2 : lookupA vmap r.vuln_id with
      | none =>
        rw [hv2] at htd
        simp at htd
      | some v =>
        rw [hv2] at htd
        simp at htd
        rw [htd]
        simp

/-- Witness for C4 at `dbC7`: its second risk row resolves `vuln_id`
11 but references the absent LIR id 99. -/
theorem C4_dangling_tolerated_witness :
    ∃ (G : KnowledgeGraph) (raNid e : Nat) (t ename : String),
      build_graph_from_sqlite dbC7 = Except.ok G ∧
      lookupA G.nodes raNid =
        some ⟨"RiskAssessment", raProps ⟨101, 1, 11, 99, "s2"⟩⟩ ∧
      lookupA G.nodes e = some ⟨"Entity", entProps ⟨1, t, ename⟩⟩ ∧
      ("HAS_ASSESSMENT", raNid) ∈ relsD G e ∧
      ((11 : Int) ∉ dbC7.vulnerabilities.map VulnRow.vuln_id →
        ∀ td ∈ relsD G raNid, td.1 ≠ "HAS_VULNERABILITY") ∧
      ((99 : Int) ∉ dbC7.lir.map LirRow.lir_id →
        ∀ td ∈ relsD G raNid, td.1 ≠ "HAS_RISK") ∧
      ∃ res G2, get_risk_assessments G ename = some (res, G2) ∧
        raProps ⟨101, 1, 11, 99, "s2"⟩ ∈ res :=
  C4_dangling_tolerated dbC7 [⟨100, 1, 10, 5, "s1"⟩] [] ⟨101, 1, 11, 99, "s2"⟩
    (by decide) (by decide) (by decide) (by decide) (by decide)
